import Mathlib

/-!
# Character grid (`Resume-Projects/gridVisualizer.cpp`)

A shallow embedding of the class `CharacterGrid` and a verification of its
indexing arithmetic.

Modelling conventions.

* `char` is modelled by `Char`, `std::string` and `std::vector<char>` by `List Char`.
* `int` is the 32-bit two's complement integer type: a value of type `int` is an `Int`
  satisfying `isInt`.  `size_t` is the 64-bit unsigned type: arithmetic on it is
  arithmetic on `Nat` reduced modulo `SIZE_MOD = 2 ^ 64`.  These are the widths of the
  usual 64-bit platforms.
* `static_cast<size_t>(x)` is `toSizeT x` (reduction modulo `2 ^ 64`),
  `static_cast<int>(n)` is `toInt n` (reduction modulo `2 ^ 32` into the signed range, the
  conversion C++20 prescribes and earlier compilers implement).
* `std::isspace` is taken in the default "C" locale, which the program never changes.
* Opening a file for reading gives `none` or an `OpenedFile`: its bytes, the size that
  the stream reports and whether the reservation of that many items succeeds.  A
  constructor that throws gives `none` instead of a grid.  `saveToFile` is the text it
  writes.
* `displayGrid` is the list of the lines it writes to the standard output.
* A method `bool f(args, T &out)` is modelled by a function into `Option T`:
  `none` is the result `false`, `some v` is the result `true` with `out = v`.
-/

namespace GridVisualizer

/-! ## Machine integers -/

/-- Largest value of the type `int` (`INT_MAX` of `<climits>`). -/
def INT_MAX : Int := 2147483647

/-- Smallest value of the type `int`. -/
def INT_MIN : Int := -2147483648

/-- Number of values of the type `size_t`, that is `2 ^ 64`. -/
def SIZE_MOD : Nat := 18446744073709551616

/-- Number of values of the type `int`, that is `2 ^ 32`. -/
def INT_MOD : Nat := 4294967296

/-- The integers that are values of the type `int`. -/
def isInt (x : Int) : Prop := INT_MIN ≤ x ∧ x ≤ INT_MAX

instance isInt.decidable (x : Int) : Decidable (isInt x) := by
  unfold isInt; infer_instance

/-- Conversion `static_cast<size_t>(x)` of an `int`: the value modulo `2 ^ 64`. -/
def toSizeT (x : Int) : Nat := (x % (SIZE_MOD : Int)).toNat

/-- Conversion `static_cast<int>(n)` of a `size_t`: the value modulo `2 ^ 32`,
read as a two's complement number. -/
def toInt (n : Nat) : Int :=
  if n % INT_MOD < 2147483648 then ((n % INT_MOD : Nat) : Int)
  else ((n % INT_MOD : Nat) : Int) - (INT_MOD : Int)

/-- Addition of two `size_t` values. -/
def sizeAdd (a b : Nat) : Nat := (a + b) % SIZE_MOD

/-- Subtraction of two `size_t` values. -/
def sizeSub (a b : Nat) : Nat := (a % SIZE_MOD + SIZE_MOD - b % SIZE_MOD) % SIZE_MOD

/-- Multiplication of two `size_t` values. -/
def sizeMul (a b : Nat) : Nat := (a * b) % SIZE_MOD

/-! ## Characters -/

/-- The function `std::isspace` in the default "C" locale: space, horizontal tab,
line feed, vertical tab, form feed and carriage return. -/
def isspace (ch : Char) : Bool :=
  ch.toNat == 32 || ch.toNat == 9 || ch.toNat == 10 || ch.toNat == 11 ||
    ch.toNat == 12 || ch.toNat == 13

/-! ## The grid -/

/-- The data members of `CharacterGrid`. -/
structure CharacterGrid where
  items_ : List Char
  num_columns_ : Int
  padding_char_ : Char

/-- Size of the buffer used by `initializeFromFile`. -/
def BUFFER_SIZE : Nat := 8192

/-- The loop of `initializeFromString`: every character of the input that is not
whitespace is pushed to the back of `items_`. -/
def initializeFromString (items_ : List Char) (input_string : List Char) : List Char :=
  input_string.foldl (fun items ch => if !isspace ch then items ++ [ch] else items) items_

/-- The reading loop of `initializeFromFile`.  `rest` is the part of the file not yet
read; each round reads at most `BUFFER_SIZE` bytes into the buffer and pushes those that
are not whitespace.  The loop goes on while a read fills the buffer or returns at least
one byte.  `fuel` bounds the number of rounds. -/
def readChunks : Nat → List Char → List Char → List Char
  | 0, _, items_ => items_
  | fuel + 1, rest, items_ =>
    let buffer := rest.take BUFFER_SIZE
    let bytes_read := buffer.length
    if bytes_read = BUFFER_SIZE ∨ bytes_read > 0 then
      readChunks fuel (rest.drop BUFFER_SIZE)
        (buffer.foldl (fun items ch => if !isspace ch then items ++ [ch] else items) items_)
    else items_

/-- What the program gets from a file that it has opened for reading.  `bytes` are the
contents, which the successive reads deliver.  `file_size` is the value of `tellg()` after
`seekg(0, std::ios::end)`: the size of a regular file, and `-1` when the stream cannot
tell its position.  `reserve_succeeds` says whether `items_.reserve(file_size)` obtains
its memory; `reserve` throws an exception otherwise. -/
structure OpenedFile where
  bytes : List Char
  file_size : Int
  reserve_succeeds : Bool

/-- The method `initializeFromFile`.  `file` is what opening the file gives: `none` when
the file cannot be opened.  The result is `none` when `reserve` throws, and otherwise the
value returned and the new `items_`. -/
def initializeFromFile (items_ : List Char) (file : Option OpenedFile) :
    Option (Bool × List Char) :=
  match file with
  | none => some (false, items_)
  | some opened =>
    if opened.file_size ≤ 0 then some (true, items_)
    else if opened.reserve_succeeds then
      some (true, readChunks (opened.bytes.length + 1) opened.bytes items_)
    else none

/-- The constructor `CharacterGrid(const std::string &input_string, int num_columns)`. -/
def CharacterGrid.fromString (input_string : List Char) (num_columns : Int) : CharacterGrid :=
  let num_columns_ := if num_columns ≤ 0 then 1 else num_columns
  { items_ := initializeFromString [] input_string
    num_columns_ := num_columns_
    padding_char_ := '-' }

/-- The constructor `CharacterGrid(const std::string &filename, int num_columns,
bool from_file)`.  `file` is what opening `filename` gives.  The result is `none` when
the constructor throws, which leaves no grid. -/
def CharacterGrid.fromFile (file : Option OpenedFile) (filename : List Char)
    (num_columns : Int) (from_file : Bool) : Option CharacterGrid :=
  let num_columns_ := if num_columns ≤ 0 then 1 else num_columns
  if from_file then
    (initializeFromFile [] file).map (fun result =>
      { items_ := result.2
        num_columns_ := num_columns_
        padding_char_ := '-' })
  else
    some
      { items_ := initializeFromString [] filename
        num_columns_ := num_columns_
        padding_char_ := '-' }

/-- The grids the program can build: the results of the two constructors on a column
count of type `int`. -/
def Constructed (g : CharacterGrid) : Prop :=
  (∃ (input_string : List Char) (num_columns : Int),
      isInt num_columns ∧ g = CharacterGrid.fromString input_string num_columns) ∨
  (∃ (file : Option OpenedFile) (filename : List Char) (num_columns : Int) (from_file : Bool),
      isInt num_columns ∧
        CharacterGrid.fromFile file filename num_columns from_file = some g)

/-- The method `totalItems`. -/
def totalItems (g : CharacterGrid) : Nat := g.items_.length

/-- The method `isEmpty`. -/
def isEmpty (g : CharacterGrid) : Bool := g.items_.isEmpty

/-- The method `totalRows`: the quotient is computed on `size_t` and converted to `int`. -/
def totalRows (g : CharacterGrid) : Int :=
  if g.num_columns_ ≤ 0 ∨ g.items_.isEmpty then 0
  else
    toInt (sizeSub (sizeAdd g.items_.length (toSizeT g.num_columns_)) 1 /
      toSizeT g.num_columns_)

/-- The method `getElementAt`. -/
def getElementAt (g : CharacterGrid) (r c : Int) : Option Char :=
  if r < 0 ∨ c < 0 ∨ r ≥ totalRows g ∨ c ≥ g.num_columns_ then none
  else
    let index := sizeAdd (sizeMul (toSizeT r) (toSizeT g.num_columns_)) (toSizeT c)
    if h : index < g.items_.length then some (g.items_[index])
    else some g.padding_char_

/-- The method `getElementAtIndex`. -/
def getElementAtIndex (g : CharacterGrid) (index : Int) : Option Char :=
  if index < 0 then none
  else if h : toSizeT index ≥ g.items_.length then none
  else
    have hlt : toSizeT index < g.items_.length := Nat.lt_of_not_le h
    some (g.items_[toSizeT index])

/-- The method `indexToCoordinates`; `/` and `%` of C++ round towards zero. -/
def indexToCoordinates (g : CharacterGrid) (index : Int) : Option (Int × Int) :=
  if index < 0 ∨ toSizeT index ≥ g.items_.length then none
  else some (Int.tdiv index g.num_columns_, Int.tmod index g.num_columns_)

/-- The method `coordinatesToIndex`. -/
def coordinatesToIndex (g : CharacterGrid) (r c : Int) : Option Int :=
  if r < 0 ∨ c < 0 ∨ r ≥ totalRows g ∨ c ≥ g.num_columns_ then none
  else
    let safe_index := sizeAdd (sizeMul (toSizeT r) (toSizeT g.num_columns_)) (toSizeT c)
    if safe_index > toSizeT INT_MAX then none
    else some (toInt safe_index)

/-- The loop of `saveToFile`: `i` is the loop counter, `rest` the items from position `i`
on, `out` the text written so far. -/
def saveLoop (num_columns_ : Int) : Nat → List Char → List Char → List Char
  | _, [], out => out
  | i, ch :: rest, out =>
    let out1 := out ++ [ch]
    let out2 :=
      if sizeAdd i 1 % toSizeT num_columns_ = 0 then out1 ++ [Char.ofNat 10] else out1
    saveLoop num_columns_ (i + 1) rest out2

/-- The method `saveToFile`, when the file can be created: the text written to it. -/
def saveToFile (g : CharacterGrid) : List Char :=
  saveLoop g.num_columns_ 0 g.items_ []

/-! ## Display -/

/-- The manipulator `std::setw(n)` applied to the next output: the text is right-justified
in a field of at least `n` characters, filled with spaces. -/
def setw (n : Nat) (text : List Char) : List Char :=
  List.replicate (n - text.length) ' ' ++ text

/-- The decimal text written for an `int`. -/
def intText (x : Int) : List Char := (Int.repr x).toList

/-- The values taken by the counter of a loop `for (int x = 0; x < bound; ++x)`. -/
def intRange (bound : Int) : List Int :=
  (List.range bound.toNat).map (fun x : Nat => (x : Int))

/-- One cell of a grid row of `displayGrid`: the item at `r * num_columns_ + c`, computed
on `size_t`, or the padding character, in a field of width 3. -/
def displayCell (g : CharacterGrid) (r c : Int) : List Char :=
  let current_index := sizeAdd (sizeMul (toSizeT r) (toSizeT g.num_columns_)) (toSizeT c)
  if h : current_index < g.items_.length then setw 3 [g.items_[current_index]]
  else setw 3 [g.padding_char_]

/-- The method `displayGrid`: the lines written to the standard output, each ended by
`std::endl`. -/
def displayGrid (g : CharacterGrid) : List (List Char) :=
  if g.items_.isEmpty then ["Grid is empty.".toList]
  else
    let header :=
      "   ".toList ++ (intRange g.num_columns_).flatMap (fun c => setw 3 (intText c))
    let rows := totalRows g
    let lines := (intRange rows).map (fun r =>
      setw 3 (intText r) ++ " ".toList ++
        (intRange g.num_columns_).flatMap (fun c => displayCell g r c))
    header :: lines ++ [[]]

/-! ## The methods with their erroneous operations

In this second embedding every operation that has a precondition checks it: an access
`items_[k]` outside the vector and a division or remainder by zero give `none`.  A method
returns `none` when it reaches such an operation and `some result` otherwise, where
`result` is as in the first embedding. -/

/-- The access `items_[k]`: `none` when `k` is not a position of the vector. -/
def checkedAt (items_ : List Char) (k : Nat) : Option Char :=
  if h : k < items_.length then some (items_[k]) else none

/-- The quotient of two `size_t` values: `none` when the divisor is zero. -/
def checkedDiv (a b : Nat) : Option Nat := if b = 0 then none else some (a / b)

/-- The remainder of two `size_t` values: `none` when the divisor is zero. -/
def checkedMod (a b : Nat) : Option Nat := if b = 0 then none else some (a % b)

/-- The quotient of two `int` values: `none` when the divisor is zero or the quotient is
not an `int`. -/
def checkedIntDiv (a b : Int) : Option Int :=
  if b = 0 ∨ (a = INT_MIN ∧ b = -1) then none else some (Int.tdiv a b)

/-- The remainder of two `int` values: `none` when the divisor is zero or the quotient
is not an `int`. -/
def checkedIntMod (a b : Int) : Option Int :=
  if b = 0 ∨ (a = INT_MIN ∧ b = -1) then none else some (Int.tmod a b)

/-- The method `totalRows`, with its division checked. -/
def totalRowsChecked (g : CharacterGrid) : Option Int :=
  if g.num_columns_ ≤ 0 ∨ g.items_.isEmpty then some 0
  else
    (checkedDiv (sizeSub (sizeAdd g.items_.length (toSizeT g.num_columns_)) 1)
      (toSizeT g.num_columns_)).map toInt

/-- The bounds test `r < 0 || c < 0 || r >= totalRows() || c >= num_columns_`, evaluated
from left to right; `none` when `totalRows` reaches an erroneous operation. -/
def outOfBoundsChecked (g : CharacterGrid) (r c : Int) : Option Bool :=
  if r < 0 then some true
  else if c < 0 then some true
  else
    (totalRowsChecked g).map (fun rows =>
      if r ≥ rows then true else if c ≥ g.num_columns_ then true else false)

/-- The method `getElementAt`, with its operations checked. -/
def getElementAtChecked (g : CharacterGrid) (r c : Int) : Option (Option Char) :=
  (outOfBoundsChecked g r c).bind (fun out_of_bounds =>
    if out_of_bounds then some none
    else
      let index := sizeAdd (sizeMul (toSizeT r) (toSizeT g.num_columns_)) (toSizeT c)
      if index < g.items_.length then (checkedAt g.items_ index).map some
      else some (some g.padding_char_))

/-- The method `getElementAtIndex`, with its access checked. -/
def getElementAtIndexChecked (g : CharacterGrid) (index : Int) : Option (Option Char) :=
  if index < 0 ∨ toSizeT index ≥ g.items_.length then some none
  else (checkedAt g.items_ (toSizeT index)).map some

/-- The method `indexToCoordinates`, with its division and remainder checked. -/
def indexToCoordinatesChecked (g : CharacterGrid) (index : Int) :
    Option (Option (Int × Int)) :=
  if index < 0 ∨ toSizeT index ≥ g.items_.length then some none
  else
    (checkedIntDiv index g.num_columns_).bind (fun out_r =>
      (checkedIntMod index g.num_columns_).map (fun out_c => some (out_r, out_c)))

/-- The method `coordinatesToIndex`, with its operations checked. -/
def coordinatesToIndexChecked (g : CharacterGrid) (r c : Int) : Option (Option Int) :=
  (outOfBoundsChecked g r c).map (fun out_of_bounds =>
    if out_of_bounds then none
    else
      let safe_index := sizeAdd (sizeMul (toSizeT r) (toSizeT g.num_columns_)) (toSizeT c)
      if safe_index > toSizeT INT_MAX then none
      else some (toInt safe_index))

/-- The loop of `saveToFile`, with its remainder checked. -/
def saveLoopChecked (num_columns_ : Int) : Nat → List Char → List Char → Option (List Char)
  | _, [], out => some out
  | i, ch :: rest, out =>
    (checkedMod (sizeAdd i 1) (toSizeT num_columns_)).bind (fun remainder =>
      let out1 := out ++ [ch]
      let out2 := if remainder = 0 then out1 ++ [Char.ofNat 10] else out1
      saveLoopChecked num_columns_ (i + 1) rest out2)

/-- The method `saveToFile`, with its remainder checked. -/
def saveToFileChecked (g : CharacterGrid) : Option (List Char) :=
  saveLoopChecked g.num_columns_ 0 g.items_ []

/-! ## Auxiliary definitions -/

/-- The value `totalRows` computes, as a function of the number of items and of the
column count. -/
def totalRowsOf (size : Nat) (cols : Int) : Int :=
  if cols ≤ 0 ∨ size = 0 then 0
  else toInt (sizeSub (sizeAdd size (toSizeT cols)) 1 / toSizeT cols)

/-- The row count of the data model, in the words of the specification: the ceiling of
`items.length / columnCount`, or `0` if `items` is empty. -/
def rowCount (g : CharacterGrid) : Int :=
  if g.items_.length = 0 then 0
  else ⌈(g.items_.length : ℚ) / (g.num_columns_ : ℚ)⌉

/-- The persisted text in the words of the specification: the characters in order, with
a row break inserted after every `k`-th character.  `i` is the position of the first
character of `rest`. -/
def withRowBreaks (k : Nat) : Nat → List Char → List Char
  | _, [] => []
  | i, ch :: rest =>
    if (i + 1) % k = 0 then ch :: Char.ofNat 10 :: withRowBreaks k (i + 1) rest
    else ch :: withRowBreaks k (i + 1) rest

/-! ## Machine integers: basic facts -/

theorem toSizeT_eq_toNat {x : Int} (h0 : 0 ≤ x) (h1 : x ≤ INT_MAX) : toSizeT x = x.toNat := by
  unfold toSizeT
  unfold INT_MAX at h1
  have h2 : x % ((SIZE_MOD : Nat) : Int) = x := by
    apply Int.emod_eq_of_lt h0
    unfold SIZE_MOD
    omega
  rw [h2]

theorem toSizeT_cast {x : Int} (h0 : 0 ≤ x) (h1 : x ≤ INT_MAX) : ((toSizeT x : Nat) : Int) = x := by
  rw [toSizeT_eq_toNat h0 h1]
  exact Int.toNat_of_nonneg h0

theorem toSizeT_INT_MAX : toSizeT INT_MAX = 2147483647 := by decide

theorem toInt_eq_self {n : Nat} (h : n ≤ 2147483647) : toInt n = (n : Int) := by
  unfold toInt INT_MOD
  have h1 : n % 4294967296 = n := Nat.mod_eq_of_lt (by omega)
  rw [h1, if_pos (by omega)]

theorem toInt_le_INT_MAX (n : Nat) : toInt n ≤ INT_MAX := by
  unfold toInt INT_MOD INT_MAX
  have h1 : n % 4294967296 < 4294967296 := Nat.mod_lt _ (by decide)
  split <;> omega

theorem INT_MIN_le_toInt (n : Nat) : INT_MIN ≤ toInt n := by
  unfold toInt INT_MOD INT_MIN
  have h1 : n % 4294967296 < 4294967296 := Nat.mod_lt _ (by decide)
  split <;> omega

/-- The `size_t` computation `r * num_columns_ + c` does not wrap around when `r`, `c` and
`num_columns_` are non-negative values of type `int`. -/
theorem linear_index_exact {r c cols : Int} (hr0 : 0 ≤ r) (hr1 : r ≤ INT_MAX)
    (hc0 : 0 ≤ c) (hc1 : c ≤ INT_MAX) (hn0 : 0 ≤ cols) (hn1 : cols ≤ INT_MAX) :
    ((sizeAdd (sizeMul (toSizeT r) (toSizeT cols)) (toSizeT c) : Nat) : Int) = r * cols + c := by
  have er := toSizeT_cast hr0 hr1
  have ec := toSizeT_cast hc0 hc1
  have en := toSizeT_cast hn0 hn1
  have br : toSizeT r ≤ 2147483647 := by unfold INT_MAX at hr1; omega
  have bc : toSizeT c ≤ 2147483647 := by unfold INT_MAX at hc1; omega
  have bn : toSizeT cols ≤ 2147483647 := by unfold INT_MAX at hn1; omega
  have bm : toSizeT r * toSizeT cols ≤ 2147483647 * 2147483647 := Nat.mul_le_mul br bn
  unfold sizeAdd sizeMul SIZE_MOD
  have e1 : toSizeT r * toSizeT cols % 18446744073709551616 = toSizeT r * toSizeT cols :=
    Nat.mod_eq_of_lt (by omega)
  rw [e1]
  have e2 : (toSizeT r * toSizeT cols + toSizeT c) % 18446744073709551616 =
      toSizeT r * toSizeT cols + toSizeT c := Nat.mod_eq_of_lt (by omega)
  rw [e2]
  push_cast
  rw [er, ec, en]

/-! ## Construction: basic facts -/

theorem initializeFromString_eq (items_ input_string : List Char) :
    initializeFromString items_ input_string =
      items_ ++ input_string.filter (fun ch => !isspace ch) := by
  unfold initializeFromString
  induction input_string generalizing items_ with
  | nil => simp
  | cons ch rest ih =>
    rw [List.foldl_cons, ih]
    by_cases hsp : isspace ch = true
    · simp [hsp]
    · simp [hsp]

theorem fromString_items (input_string : List Char) (num_columns : Int) :
    (CharacterGrid.fromString input_string num_columns).items_ =
      input_string.filter (fun ch => !isspace ch) := by
  simp [CharacterGrid.fromString, initializeFromString_eq]

/-! ## Construction from a file: basic facts -/

/-- With enough fuel the reading loop of `initializeFromFile` pushes exactly the bytes of
the file that are not whitespace, in their order. -/
theorem readChunks_eq (fuel : Nat) (rest items_ : List Char) (hfuel : rest.length < fuel) :
    readChunks fuel rest items_ = items_ ++ rest.filter (fun ch => !isspace ch) := by
  induction fuel generalizing rest items_ with
  | zero => omega
  | succ fuel ih =>
    unfold readChunks
    have hpush := initializeFromString_eq items_ (rest.take BUFFER_SIZE)
    unfold initializeFromString at hpush
    simp only [hpush]
    by_cases hempty : rest = []
    · subst hempty
      simp [BUFFER_SIZE]
    · have hpos : 0 < rest.length := List.length_pos.mpr hempty
      have hread : (rest.take BUFFER_SIZE).length > 0 := by
        rw [List.length_take]
        unfold BUFFER_SIZE
        omega
      rw [if_pos (Or.inr hread), ih]
      · rw [List.append_assoc, ← List.filter_append, List.take_append_drop]
      · rw [List.length_drop]
        unfold BUFFER_SIZE
        omega

/-- The three outcomes of `initializeFromFile` on a file that could be opened: no items
when the reported size is not positive, an exception when the reservation fails, and
otherwise the bytes of the file that are not whitespace. -/
theorem initializeFromFile_opened (opened : OpenedFile) :
    initializeFromFile [] (some opened) =
      if opened.file_size ≤ 0 then some (true, [])
      else if opened.reserve_succeeds then
        some (true, opened.bytes.filter (fun ch => !isspace ch))
      else none := by
  unfold initializeFromFile
  simp only [readChunks_eq _ _ _ (Nat.lt_succ_self _), List.nil_append]

/-- The items that `initializeFromFile` leaves, when it does not throw, are some text
filtered by `isspace`. -/
theorem initializeFromFile_filtered (file : Option OpenedFile) (result : Bool × List Char)
    (h : initializeFromFile [] file = some result) :
    ∃ text : List Char, result.2 = text.filter (fun ch => !isspace ch) := by
  cases file with
  | none =>
    have hres : result = (false, []) := (Option.some.inj h).symm
    exact ⟨[], by rw [hres]; rfl⟩
  | some opened =>
    rw [initializeFromFile_opened] at h
    by_cases hsize : opened.file_size ≤ 0
    · rw [if_pos hsize] at h
      have hres : result = (true, []) := (Option.some.inj h).symm
      exact ⟨[], by rw [hres]; rfl⟩
    · rw [if_neg hsize] at h
      by_cases hmem : opened.reserve_succeeds = true
      · rw [if_pos hmem] at h
        have hres := (Option.some.inj h).symm
        exact ⟨opened.bytes, by rw [hres]⟩
      · rw [if_neg hmem] at h
        cases h

/-- The constructor that takes a file name gives no grid exactly when it reads from a
file that it could open, the stream reports a positive size and the reservation of that
many items throws. -/
theorem fromFile_eq_none_iff (file : Option OpenedFile) (filename : List Char) (n : Int)
    (from_file : Bool) :
    CharacterGrid.fromFile file filename n from_file = none ↔
      (from_file = true ∧ ∃ opened : OpenedFile, file = some opened ∧
        0 < opened.file_size ∧ opened.reserve_succeeds = false) := by
  unfold CharacterGrid.fromFile
  cases from_file with
  | false => simp
  | true =>
    simp only [if_true, Option.map_eq_none', true_and]
    cases file with
    | none => simp [initializeFromFile]
    | some opened =>
      rw [initializeFromFile_opened]
      by_cases hsize : opened.file_size ≤ 0
      · rw [if_pos hsize]
        constructor
        · intro h; cases h
        · rintro ⟨o, ho, hpos, _⟩
          have := Option.some.inj ho
          subst this
          omega
      · rw [if_neg hsize]
        by_cases hmem : opened.reserve_succeeds = true
        · rw [if_pos hmem]
          constructor
          · intro h; cases h
          · rintro ⟨o, ho, _, hfail⟩
            have := Option.some.inj ho
            subst this
            rw [hmem] at hfail
            cases hfail
        · rw [if_neg hmem]
          constructor
          · intro _
            exact ⟨opened, rfl, by omega, by simpa using hmem⟩
          · intro _; rfl

/-- A grid built by the constructor that takes a file name has the clamped column count,
the padding character `-` and items that are some text filtered by `isspace`. -/
theorem fromFile_eq_some {file : Option OpenedFile} {filename : List Char} {n : Int}
    {from_file : Bool} {g : CharacterGrid}
    (h : CharacterGrid.fromFile file filename n from_file = some g) :
    g.num_columns_ = (if n ≤ 0 then 1 else n) ∧ g.padding_char_ = '-' ∧
      ∃ text : List Char, g.items_ = text.filter (fun ch => !isspace ch) := by
  unfold CharacterGrid.fromFile at h
  cases from_file with
  | false =>
    simp only [Bool.false_eq_true, if_false] at h
    have hg := (Option.some.inj h).symm
    subst hg
    exact ⟨rfl, rfl, filename, by simp [initializeFromString_eq]⟩
  | true =>
    simp only [if_true] at h
    cases hinit : initializeFromFile [] file with
    | none =>
      rw [hinit] at h
      cases h
    | some result =>
      rw [hinit] at h
      have hg := (Option.some.inj h).symm
      subst hg
      exact ⟨rfl, rfl, initializeFromFile_filtered file result hinit⟩

/-- Every constructed grid has a column count between `1` and `INT_MAX` and the padding
character `-`. -/
theorem Constructed.columns {g : CharacterGrid} (hg : Constructed g) :
    1 ≤ g.num_columns_ ∧ g.num_columns_ ≤ INT_MAX ∧ g.padding_char_ = '-' := by
  rcases hg with ⟨s, n, hn, rfl⟩ | ⟨f, s, n, b, hn, hsome⟩
  · unfold isInt INT_MIN INT_MAX at hn
    unfold INT_MAX
    refine ⟨?_, ?_, rfl⟩
    · show 1 ≤ (if n ≤ 0 then 1 else n)
      split <;> omega
    · show (if n ≤ 0 then 1 else n) ≤ 2147483647
      split <;> omega
  · obtain ⟨hcols, hpad, _⟩ := fromFile_eq_some hsome
    unfold isInt INT_MIN INT_MAX at hn
    unfold INT_MAX
    rw [hcols]
    refine ⟨?_, ?_, hpad⟩
    · split <;> omega
    · split <;> omega

/-! ## Persistence: basic facts -/

theorem isspace_newline : isspace (Char.ofNat 10) = true := by decide

/-- Filtering whitespace out of the text written by the loop of `saveToFile` gives back
the filtered text written before the loop followed by the filtered items. -/
theorem filter_saveLoop (cols : Int) (rest : List Char) (i : Nat) (out : List Char) :
    (saveLoop cols i rest out).filter (fun ch => !isspace ch) =
      out.filter (fun ch => !isspace ch) ++ rest.filter (fun ch => !isspace ch) := by
  induction rest generalizing i out with
  | nil => simp [saveLoop]
  | cons ch rest ih =>
    simp only [saveLoop]
    rw [ih]
    split
    · by_cases hsp : isspace ch = true <;>
        simp [List.filter_append, List.filter_cons, isspace_newline, hsp]
    · by_cases hsp : isspace ch = true <;>
        simp [List.filter_append, List.filter_cons, hsp]

/-! ## Row count: basic facts -/

theorem totalRows_eq_totalRowsOf (g : CharacterGrid) :
    totalRows g = totalRowsOf g.items_.length g.num_columns_ := by
  unfold totalRows totalRowsOf
  cases h : g.items_ <;> simp

theorem totalRows_le_INT_MAX (g : CharacterGrid) : totalRows g ≤ INT_MAX := by
  unfold totalRows
  split
  · decide
  · exact toInt_le_INT_MAX _

/-- The items of the grid built from `n` copies of the letter `a`. -/
theorem fromString_replicate_items (n : Nat) (num_columns : Int) :
    (CharacterGrid.fromString (List.replicate n 'a') num_columns).items_ =
      List.replicate n 'a' := by
  rw [fromString_items]
  apply List.filter_eq_self.mpr
  intro ch hch
  rw [List.eq_of_mem_replicate hch]
  decide

theorem fromString_replicate_length (n : Nat) (num_columns : Int) :
    (CharacterGrid.fromString (List.replicate n 'a') num_columns).items_.length = n := by
  rw [fromString_replicate_items, List.length_replicate]

theorem totalRows_replicate (n : Nat) (num_columns : Int) :
    totalRows (CharacterGrid.fromString (List.replicate n 'a') num_columns) =
      totalRowsOf n (if num_columns ≤ 0 then 1 else num_columns) := by
  rw [totalRows_eq_totalRowsOf, fromString_replicate_length]
  rfl

/-- For in-bounds coordinates of a constructed grid, the `size_t` index computed by
`getElementAt` and `coordinatesToIndex` is the exact value `r * num_columns_ + c`. -/
theorem linear_index_of_in_bounds {g : CharacterGrid} (hg : Constructed g) {r c : Int}
    (hr0 : 0 ≤ r) (hr1 : r < totalRows g) (hc0 : 0 ≤ c) (hc1 : c < g.num_columns_) :
    sizeAdd (sizeMul (toSizeT r) (toSizeT g.num_columns_)) (toSizeT c) =
      (r * g.num_columns_ + c).toNat := by
  obtain ⟨hn1, hn2, _⟩ := hg.columns
  have hrows := totalRows_le_INT_MAX g
  have hcast := linear_index_exact hr0 (by omega) hc0 (by omega) (by omega : 0 ≤ g.num_columns_) hn2
  rw [← hcast, Int.toNat_ofNat]

/-- Ceiling division on natural numbers: bounds on the quotient `(n + k - 1) / k`. -/
theorem ceil_div_bounds {n k : Nat} (hn : 1 ≤ n) (hk : 1 ≤ k) :
    k * ((n + k - 1) / k) < n + k ∧ n ≤ k * ((n + k - 1) / k) ∧ (n + k - 1) / k ≤ n ∧
      1 ≤ (n + k - 1) / k := by
  have hdm := Nat.div_add_mod (n + k - 1) k
  have hmod := Nat.mod_lt (n + k - 1) (by omega : k > 0)
  have hq1 : 1 ≤ (n + k - 1) / k := (Nat.one_le_div_iff (by omega)).mpr (by omega)
  have hqn : (n + k - 1) / k ≤ n := by
    apply Nat.le_of_lt_succ
    apply (Nat.div_lt_iff_lt_mul (by omega)).mpr
    have h1 : n ≤ n * k := Nat.le_mul_of_pos_right _ (by omega)
    rw [Nat.succ_mul]
    omega
  generalize k * ((n + k - 1) / k) = p at *
  omega

/-- When there are between `1` and `INT_MAX` items, `totalRows` computes the ceiling
division without wrap-around. -/
theorem totalRowsOf_of_small {size : Nat} {cols : Int} (hs1 : 1 ≤ size)
    (hs2 : size ≤ 2147483647) (hn1 : 1 ≤ cols) (hn2 : cols ≤ INT_MAX) :
    totalRowsOf size cols = (((size + cols.toNat - 1) / cols.toNat : Nat) : Int) := by
  have hk := toSizeT_eq_toNat (by omega : 0 ≤ cols) hn2
  unfold INT_MAX at hn2
  unfold totalRowsOf
  rw [if_neg (by omega), hk]
  have e1 : sizeAdd size cols.toNat = size + cols.toNat := by
    unfold sizeAdd SIZE_MOD
    exact Nat.mod_eq_of_lt (by omega)
  have e2 : sizeSub (size + cols.toNat) 1 = size + cols.toNat - 1 := by
    unfold sizeSub SIZE_MOD
    omega
  rw [e1, e2]
  obtain ⟨_, _, hq, _⟩ := ceil_div_bounds hs1 (by omega : 1 ≤ cols.toNat)
  exact toInt_eq_self (by omega)

/-- For a constructed grid with at most `INT_MAX` items, `totalRows` is `0` exactly when
there are no items. -/
theorem totalRows_eq_zero_iff_of_small {g : CharacterGrid} (hg : Constructed g)
    (hsmall : g.items_.length ≤ 2147483647) : totalRows g = 0 ↔ g.items_ = [] := by
  obtain ⟨hn1, hn2, _⟩ := hg.columns
  rw [totalRows_eq_totalRowsOf]
  constructor
  · intro h
    by_contra hne
    have hlen : 1 ≤ g.items_.length := List.length_pos.mpr hne
    rw [totalRowsOf_of_small hlen hsmall hn1 hn2] at h
    obtain ⟨_, _, _, hq⟩ := ceil_div_bounds hlen (by omega : 1 ≤ g.num_columns_.toNat)
    omega
  · intro h
    rw [h]
    simp [totalRowsOf]

/-- For a constructed grid with at most `INT_MAX` items, `totalRows` is the row count of
the data model. -/
theorem totalRows_eq_rowCount_of_small {g : CharacterGrid} (hg : Constructed g)
    (hsmall : g.items_.length ≤ 2147483647) : totalRows g = rowCount g := by
  obtain ⟨hn1, hn2, _⟩ := hg.columns
  rw [totalRows_eq_totalRowsOf]
  unfold rowCount
  by_cases hzero : g.items_.length = 0
  · rw [if_pos hzero, hzero]
    simp [totalRowsOf]
  · rw [if_neg hzero]
    have hlen : 1 ≤ g.items_.length := by omega
    rw [totalRowsOf_of_small hlen hsmall hn1 hn2]
    have hk1 : 1 ≤ g.num_columns_.toNat := by omega
    obtain ⟨hlt, hle, _, hq⟩ := ceil_div_bounds hlen hk1
    have hcols : (g.num_columns_ : ℚ) = ((g.num_columns_.toNat : Nat) : ℚ) := by
      have h := Int.toNat_of_nonneg (by omega : 0 ≤ g.num_columns_)
      exact_mod_cast h.symm
    rw [hcols]
    generalize g.num_columns_.toNat = k at *
    generalize g.items_.length = n at *
    generalize hqdef : (n + k - 1) / k = q at *
    symm
    have hkpos : (0 : ℚ) < (k : ℚ) := by exact_mod_cast hk1
    have hlt2 : ((k * q : Nat) : ℚ) < ((n + k : Nat) : ℚ) := by exact_mod_cast hlt
    have hle2 : ((n : Nat) : ℚ) ≤ ((k * q : Nat) : ℚ) := by exact_mod_cast hle
    push_cast at hlt2 hle2
    rw [Int.ceil_eq_iff]
    constructor
    · rw [lt_div_iff₀ hkpos]
      push_cast
      nlinarith
    · rw [div_le_iff₀ hkpos]
      push_cast
      nlinarith

/-- For a valid index of a constructed grid, `indexToCoordinates` succeeds with the
quotient and the remainder of the division by `num_columns_`. -/
theorem indexToCoordinates_eq_some {g : CharacterGrid} (hn1 : 1 ≤ g.num_columns_)
    {index : Int} (h0 : 0 ≤ index) (hi : index ≤ INT_MAX)
    (hlt : index < (g.items_.length : Int)) :
    indexToCoordinates g index = some (index / g.num_columns_, index % g.num_columns_) := by
  have hcast := toSizeT_cast h0 hi
  unfold indexToCoordinates
  rw [if_neg (by omega), Int.tdiv_eq_ediv h0 (by omega), Int.tmod_eq_emod h0 (by omega)]

/-- For in-bounds coordinates of a constructed grid, `coordinatesToIndex` fails when
`r * num_columns_ + c` exceeds `INT_MAX` and returns that number otherwise. -/
theorem coordinatesToIndex_in_bounds {g : CharacterGrid} (hg : Constructed g) {r c : Int}
    (hr0 : 0 ≤ r) (hr1 : r < totalRows g) (hc0 : 0 ≤ c) (hc1 : c < g.num_columns_) :
    coordinatesToIndex g r c =
      if r * g.num_columns_ + c > INT_MAX then none else some (r * g.num_columns_ + c) := by
  have hidx := linear_index_of_in_bounds hg hr0 hr1 hc0 hc1
  obtain ⟨hn1, _, _⟩ := hg.columns
  have hnonneg : 0 ≤ r * g.num_columns_ + c := by positivity
  have hcast : (((r * g.num_columns_ + c).toNat : Nat) : Int) = r * g.num_columns_ + c :=
    Int.toNat_of_nonneg hnonneg
  unfold coordinatesToIndex
  rw [if_neg (by omega)]
  simp only [hidx, toSizeT_INT_MAX]
  unfold INT_MAX
  by_cases hover : (r * g.num_columns_ + c).toNat > 2147483647
  · rw [if_pos hover, if_pos (by omega)]
  · rw [if_neg hover, if_neg (by omega), toInt_eq_self (by omega), hcast]

/-- For a constructed grid with at most `INT_MAX` items, every valid index is mapped by
`indexToCoordinates` to coordinates that `coordinatesToIndex` maps back to the index. -/
theorem roundtrip_index_of_small {g : CharacterGrid} (hg : Constructed g)
    (hsmall : g.items_.length ≤ 2147483647) {index : Int} (h0 : 0 ≤ index)
    (hlt : index < (g.items_.length : Int)) :
    ∃ row col : Int, indexToCoordinates g index = some (row, col) ∧
      coordinatesToIndex g row col = some index := by
  obtain ⟨hn1, hn2, _⟩ := hg.columns
  have hi : index ≤ INT_MAX := by unfold INT_MAX; omega
  refine ⟨index / g.num_columns_, index % g.num_columns_,
    indexToCoordinates_eq_some hn1 h0 hi hlt, ?_⟩
  have hlen : 1 ≤ g.items_.length := by omega
  have hk1 : 1 ≤ g.num_columns_.toNat := by omega
  obtain ⟨_, hle, _, _⟩ := ceil_div_bounds hlen hk1
  have hrows : index / g.num_columns_ < totalRows g := by
    rw [totalRows_eq_totalRowsOf, totalRowsOf_of_small hlen hsmall hn1 hn2]
    apply Int.ediv_lt_of_lt_mul (by omega)
    have hk : ((g.num_columns_.toNat : Nat) : Int) = g.num_columns_ :=
      Int.toNat_of_nonneg (by omega)
    generalize (g.items_.length + g.num_columns_.toNat - 1) / g.num_columns_.toNat = q at *
    have hle2 : ((g.items_.length : Nat) : Int) ≤ ((g.num_columns_.toNat * q : Nat) : Int) := by
      exact_mod_cast hle
    rw [Nat.cast_mul, hk] at hle2
    rw [mul_comm]
    omega
  have hsum : index / g.num_columns_ * g.num_columns_ + index % g.num_columns_ = index := by
    rw [mul_comm]
    exact Int.ediv_add_emod index g.num_columns_
  rw [coordinatesToIndex_in_bounds hg (Int.ediv_nonneg h0 (by omega)) hrows
    (Int.emod_nonneg _ (by omega)) (Int.emod_lt_of_pos _ (by omega)), hsum,
    if_neg (by omega)]

/-! ## The claims -/

/-- C1 (the code departs from the claim).  The grid built from `2147483648` copies of the
letter `a` with one column has `2147483648` items, so index `0` is valid and
`indexToCoordinates` maps it to `(0, 0)`; but `totalRows` converts the row count
`2147483648` to `int`, which gives `-2147483648`, and `coordinatesToIndex` rejects
`(0, 0)` instead of returning `0`. -/
theorem roundtrip_index_fails_on_large_grid :
    (CharacterGrid.fromString (List.replicate 2147483648 'a') 1).items_.length = 2147483648 ∧
      indexToCoordinates (CharacterGrid.fromString (List.replicate 2147483648 'a') 1) 0 =
        some (0, 0) ∧
      coordinatesToIndex (CharacterGrid.fromString (List.replicate 2147483648 'a') 1) 0 0 =
        none := by
  refine ⟨fromString_replicate_length _ _, ?_, ?_⟩
  · unfold indexToCoordinates
    rw [fromString_replicate_length]
    rfl
  · unfold coordinatesToIndex
    rw [totalRows_replicate]
    rfl

/-- C2.  For every source string and every column count, building a grid, taking the text
that `saveToFile` writes and building a new grid from that text, with any column count,
gives the items of the first grid. -/
theorem saveToFile_roundtrip (input_string : List Char) (num_columns other_columns : Int) :
    (CharacterGrid.fromString
        (saveToFile (CharacterGrid.fromString input_string num_columns)) other_columns).items_ =
      (CharacterGrid.fromString input_string num_columns).items_ := by
  rw [fromString_items, saveToFile, filter_saveLoop, fromString_items]
  simp [List.filter_filter]

/-- The guard of `getElementAt`.  For every grid and all integers `row`, `col`,
`getElementAt` fails exactly when `row < 0` or `col < 0` or `row ≥ totalRows` or
`col ≥ num_columns_`, and it succeeds exactly when `0 ≤ row < totalRows` and
`0 ≤ col < num_columns_`, where `totalRows` is the value that the method returns. -/
theorem getElementAt_fails_iff (g : CharacterGrid) (row col : Int) :
    (getElementAt g row col = none ↔
        (row < 0 ∨ col < 0 ∨ row ≥ totalRows g ∨ col ≥ g.num_columns_)) ∧
      ((getElementAt g row col).isSome = true ↔
        (0 ≤ row ∧ row < totalRows g ∧ 0 ≤ col ∧ col < g.num_columns_)) := by
  unfold getElementAt
  by_cases hguard : row < 0 ∨ col < 0 ∨ row ≥ totalRows g ∨ col ≥ g.num_columns_
  · rw [if_pos hguard]
    refine ⟨by simp [hguard], ?_⟩
    simp only [Option.isSome_none]
    constructor
    · intro h; cases h
    · intro h; omega
  · rw [if_neg hguard]
    constructor
    · constructor
      · intro h
        exfalso
        revert h
        simp only []
        split <;> simp
      · intro h; exact absurd h hguard
    · constructor
      · intro _; omega
      · intro _
        simp only []
        split <;> rfl

/-- The value of `getElementAt` below the value `totalRows` returns.  For every
constructed grid and every `(row, col)` with `0 ≤ row < totalRows` and
`0 ≤ col < num_columns_`, the number `row * num_columns_ + col` is non-negative, `getElementAt` returns the item at that position when the position is
below the number of items, and returns the padding character `-` otherwise. -/
theorem getElementAt_value (g : CharacterGrid) (hg : Constructed g) (row col : Int)
    (hr0 : 0 ≤ row) (hr1 : row < totalRows g) (hc0 : 0 ≤ col) (hc1 : col < g.num_columns_) :
    0 ≤ row * g.num_columns_ + col ∧
      (∀ h : (row * g.num_columns_ + col).toNat < g.items_.length,
        getElementAt g row col =
          some (g.items_.get ⟨(row * g.num_columns_ + col).toNat, h⟩)) ∧
      (g.items_.length ≤ (row * g.num_columns_ + col).toNat →
        getElementAt g row col = some '-') := by
  have hidx := linear_index_of_in_bounds hg hr0 hr1 hc0 hc1
  obtain ⟨hn1, _, hpad⟩ := hg.columns
  have hguard : ¬ (row < 0 ∨ col < 0 ∨ row ≥ totalRows g ∨ col ≥ g.num_columns_) := by omega
  have hnonneg : 0 ≤ row * g.num_columns_ + col := by positivity
  refine ⟨hnonneg, ?_, ?_⟩
  · intro h
    unfold getElementAt
    rw [if_neg hguard]
    simp only [hidx, dif_pos h]
    rfl
  · intro h
    unfold getElementAt
    rw [if_neg hguard]
    simp only [hidx, dif_neg (Nat.not_lt.mpr h), hpad]

/-- The examples of the specification: in the grid built from `abcdef` with two
columns the cell `(1, 1)` holds `d`, and in the grid built from `abc` with four columns
the cell `(0, 3)` holds the padding character. -/
theorem getElementAt_value_witness :
    getElementAt (CharacterGrid.fromString "abcdef".toList 2) 1 1 = some 'd' ∧
      getElementAt (CharacterGrid.fromString "abc".toList 4) 0 3 = some '-' :=
  ⟨(getElementAt_value (CharacterGrid.fromString "abcdef".toList 2)
      (Or.inl ⟨_, _, by decide, rfl⟩) 1 1 (by decide) (by decide) (by decide)
      (by decide)).2.1 (by decide),
   (getElementAt_value (CharacterGrid.fromString "abc".toList 4)
      (Or.inl ⟨_, _, by decide, rfl⟩) 0 3 (by decide) (by decide) (by decide)
      (by decide)).2.2 (by decide)⟩

/-- C5 (the code departs from the claim).  The grid built from `4294967296` copies of the
letter `a` with one column is not empty, yet `totalRows` returns `0` for it: the row count
`4294967296` is converted to `int`, which keeps its low 32 bits. -/
theorem totalRows_zero_on_nonempty_grid :
    (CharacterGrid.fromString (List.replicate 4294967296 'a') 1).items_.length = 4294967296 ∧
      (CharacterGrid.fromString (List.replicate 4294967296 'a') 1).items_ ≠ [] ∧
      totalRows (CharacterGrid.fromString (List.replicate 4294967296 'a') 1) = 0 := by
  refine ⟨fromString_replicate_length _ _, ?_, ?_⟩
  · intro h
    have hlen := fromString_replicate_length 4294967296 1
    rw [h] at hlen
    exact absurd hlen (by decide)
  · rw [totalRows_replicate]
    decide

/-- C6 (the code departs from the claim).  The grid built from `2147483648` copies of the
letter `a` with one column has `rowCount = ceil(2147483648 / 1) = 2147483648`, but
`totalRows` returns `-2147483648`: the quotient does not fit in an `int` and is converted
all the same. -/
theorem totalRows_differs_from_ceiling :
    rowCount (CharacterGrid.fromString (List.replicate 2147483648 'a') 1) = 2147483648 ∧
      totalRows (CharacterGrid.fromString (List.replicate 2147483648 'a') 1) =
        -2147483648 := by
  constructor
  · unfold rowCount
    rw [fromString_replicate_length]
    show (if (2147483648 : ℕ) = 0 then (0 : ℤ)
      else ⌈((2147483648 : ℕ) : ℚ) / ((1 : ℤ) : ℚ)⌉) = 2147483648
    norm_num
  · rw [totalRows_replicate]
    decide

/-- The guards of `coordinatesToIndex`.  For every constructed grid and all integers
`row`, `col`, `coordinatesToIndex` fails exactly when `row < 0` or `col < 0` or
`row ≥ totalRows` or `col ≥ num_columns_` or `row * num_columns_ + col > INT_MAX`, where
`totalRows` is the value that the method returns; when it succeeds the index it returns
is the exact integer `row * num_columns_ + col`. -/
theorem coordinatesToIndex_fails_iff (g : CharacterGrid) (hg : Constructed g) (row col : Int) :
    (coordinatesToIndex g row col = none ↔
        (row < 0 ∨ col < 0 ∨ row ≥ totalRows g ∨ col ≥ g.num_columns_ ∨
          row * g.num_columns_ + col > INT_MAX)) ∧
      (∀ index : Int, coordinatesToIndex g row col = some index →
        index = row * g.num_columns_ + col) := by
  by_cases hguard : row < 0 ∨ col < 0 ∨ row ≥ totalRows g ∨ col ≥ g.num_columns_
  · have hnone : coordinatesToIndex g row col = none := by
      unfold coordinatesToIndex
      rw [if_pos hguard]
    rw [hnone]
    refine ⟨⟨fun _ => ?_, fun _ => rfl⟩, fun index h => by cases h⟩
    rcases hguard with h | h | h | h
    · exact Or.inl h
    · exact Or.inr (Or.inl h)
    · exact Or.inr (Or.inr (Or.inl h))
    · exact Or.inr (Or.inr (Or.inr (Or.inl h)))
  · rw [coordinatesToIndex_in_bounds hg (by omega) (by omega) (by omega) (by omega)]
    by_cases hover : row * g.num_columns_ + col > INT_MAX
    · rw [if_pos hover]
      exact ⟨⟨fun _ => Or.inr (Or.inr (Or.inr (Or.inr hover))), fun _ => rfl⟩,
        fun index h => by cases h⟩
    · rw [if_neg hover]
      constructor
      · constructor
        · intro h; cases h
        · intro h
          rcases h with h | h | h | h | h
          · exact absurd (Or.inl h) hguard
          · exact absurd (Or.inr (Or.inl h)) hguard
          · exact absurd (Or.inr (Or.inr (Or.inl h))) hguard
          · exact absurd (Or.inr (Or.inr (Or.inr h))) hguard
          · exact absurd h hover
      · intro index h
        exact (Option.some.inj h).symm

/-- The grid built from `abc` with four columns: the cell `(1, 0)` is out of
bounds and is rejected; the cell `(0, 3)` is in bounds and the only index it can be given
is `3`. -/
theorem coordinatesToIndex_fails_iff_witness :
    coordinatesToIndex (CharacterGrid.fromString "abc".toList 4) 1 0 = none ∧
      (∀ index : Int, coordinatesToIndex (CharacterGrid.fromString "abc".toList 4) 0 3 =
        some index → index = 3) :=
  ⟨((coordinatesToIndex_fails_iff (CharacterGrid.fromString "abc".toList 4)
      (Or.inl ⟨_, _, by decide, rfl⟩) 1 0).1).2 (by decide),
   (coordinatesToIndex_fails_iff (CharacterGrid.fromString "abc".toList 4)
      (Or.inl ⟨_, _, by decide, rfl⟩) 0 3).2⟩

/-- C8.  For every constructed grid and every `index` of type `int`, `indexToCoordinates`
fails exactly when `index < 0` or `index` is at least the number of items; when it
succeeds it returns `row = index / num_columns_` and `col = index % num_columns_`, so
that `row * num_columns_ + col = index` and `0 ≤ col < num_columns_`. -/
theorem indexToCoordinates_spec (g : CharacterGrid) (hg : Constructed g) (index : Int)
    (hi : isInt index) :
    (indexToCoordinates g index = none ↔ (index < 0 ∨ index ≥ (g.items_.length : Int))) ∧
      (∀ row col : Int, indexToCoordinates g index = some (row, col) →
        row = index / g.num_columns_ ∧ col = index % g.num_columns_ ∧
          row * g.num_columns_ + col = index ∧ 0 ≤ col ∧ col < g.num_columns_) := by
  obtain ⟨hn1, _, _⟩ := hg.columns
  unfold indexToCoordinates
  by_cases hneg : index < 0
  · rw [if_pos (Or.inl hneg)]
    exact ⟨⟨fun _ => Or.inl hneg, fun _ => rfl⟩, fun row col h => by cases h⟩
  · have h0 : 0 ≤ index := by omega
    have hcast := toSizeT_cast h0 hi.2
    by_cases hbig : toSizeT index ≥ g.items_.length
    · rw [if_pos (Or.inr hbig)]
      refine ⟨⟨fun _ => Or.inr ?_, fun _ => rfl⟩, fun row col h => by cases h⟩
      omega
    · have hguard : ¬ (index < 0 ∨ toSizeT index ≥ g.items_.length) := by omega
      rw [if_neg hguard]
      constructor
      · constructor
        · intro h; cases h
        · intro h; omega
      · intro row col h
        have hpair := Option.some.inj h
        have hrow : Int.tdiv index g.num_columns_ = row := congrArg Prod.fst hpair
        have hcol : Int.tmod index g.num_columns_ = col := congrArg Prod.snd hpair
        rw [Int.tdiv_eq_ediv h0 (by omega)] at hrow
        rw [Int.tmod_eq_emod h0 (by omega)] at hcol
        subst hrow hcol
        refine ⟨rfl, rfl, ?_, Int.emod_nonneg _ (by omega), Int.emod_lt_of_pos _ (by omega)⟩
        rw [mul_comm]
        exact Int.ediv_add_emod index g.num_columns_

/-- C8 on the example of the specification: in the grid built from `abcdef` with two
columns, index `5` has the coordinates `(2, 1)`, and index `6` is rejected. -/
theorem indexToCoordinates_spec_witness :
    indexToCoordinates (CharacterGrid.fromString "abcdef".toList 2) 6 = none ∧
      (∀ row col : Int,
        indexToCoordinates (CharacterGrid.fromString "abcdef".toList 2) 5 = some (row, col) →
          row = 2 ∧ col = 1 ∧ row * 2 + col = 5 ∧ 0 ≤ col ∧ col < 2) :=
  ⟨((indexToCoordinates_spec (CharacterGrid.fromString "abcdef".toList 2)
      (Or.inl ⟨_, _, by decide, rfl⟩) 6 (by decide)).1).2 (by decide),
   (indexToCoordinates_spec (CharacterGrid.fromString "abcdef".toList 2)
      (Or.inl ⟨_, _, by decide, rfl⟩) 5 (by decide)).2⟩

/-- C9.  For every grid and every `index` of type `int`, `getElementAtIndex` fails exactly
when `index < 0` or `index` is at least the number of items, and for every other index it
returns the item at position `index`. -/
theorem getElementAtIndex_spec (g : CharacterGrid) (index : Int) (hi : isInt index) :
    (getElementAtIndex g index = none ↔ (index < 0 ∨ index ≥ (g.items_.length : Int))) ∧
      (∀ h : index.toNat < g.items_.length, 0 ≤ index →
        getElementAtIndex g index = some (g.items_.get ⟨index.toNat, h⟩)) := by
  unfold getElementAtIndex
  by_cases hneg : index < 0
  · rw [if_pos hneg]
    exact ⟨⟨fun _ => Or.inl hneg, fun _ => rfl⟩, fun _ h0 => by omega⟩
  · have h0 : 0 ≤ index := by omega
    have hnat := toSizeT_eq_toNat h0 hi.2
    rw [if_neg hneg]
    by_cases hbig : toSizeT index ≥ g.items_.length
    · rw [dif_pos hbig]
      refine ⟨⟨fun _ => Or.inr ?_, fun _ => rfl⟩, fun h _ => by omega⟩
      omega
    · rw [dif_neg hbig]
      constructor
      · constructor
        · intro h; cases h
        · intro h; omega
      · intro h _
        simp only [hnat]
        rfl

/-- C9 on the grid built from `abcdef` with two columns: index `6` is rejected and index
`3` gives the item `d`. -/
theorem getElementAtIndex_spec_witness :
    getElementAtIndex (CharacterGrid.fromString "abcdef".toList 2) 6 = none ∧
      getElementAtIndex (CharacterGrid.fromString "abcdef".toList 2) 3 = some 'd' :=
  ⟨((getElementAtIndex_spec (CharacterGrid.fromString "abcdef".toList 2) 6
      (by decide)).1).2 (by decide),
   (getElementAtIndex_spec (CharacterGrid.fromString "abcdef".toList 2) 3
      (by decide)).2 (by decide) (by decide)⟩

/-- C10.  For every source and every requested column count `n`, both constructors give a
grid whose column count is `1` if `n ≤ 0` and `n` otherwise, hence at least `1`; the items
of the grid, and whether the constructor throws, do not depend on `n`; and the request
`n = 0` gives the column count `1`.  The constructor that takes a file name gives no grid
when it throws, which happens exactly when it reads from a file that it could open, the
stream reports a positive size and the reservation of that many items fails. -/
theorem constructor_clamps_columns (input_string : List Char) (file : Option OpenedFile)
    (filename : List Char) (from_file : Bool) (n : Int) :
    (CharacterGrid.fromString input_string n).num_columns_ = (if n ≤ 0 then 1 else n) ∧
      (∀ g : CharacterGrid, CharacterGrid.fromFile file filename n from_file = some g →
        g.num_columns_ = (if n ≤ 0 then 1 else n)) ∧
      1 ≤ (CharacterGrid.fromString input_string n).num_columns_ ∧
      (∀ g : CharacterGrid, CharacterGrid.fromFile file filename n from_file = some g →
        1 ≤ g.num_columns_) ∧
      (∀ m : Int, (CharacterGrid.fromString input_string n).items_ =
        (CharacterGrid.fromString input_string m).items_) ∧
      (∀ m : Int,
        (CharacterGrid.fromFile file filename n from_file).map CharacterGrid.items_ =
          (CharacterGrid.fromFile file filename m from_file).map CharacterGrid.items_) ∧
      (CharacterGrid.fromString input_string 0).num_columns_ = 1 ∧
      (∀ g : CharacterGrid, CharacterGrid.fromFile file filename 0 from_file = some g →
        g.num_columns_ = 1) ∧
      (CharacterGrid.fromFile file filename n from_file = none ↔
        (from_file = true ∧ ∃ opened : OpenedFile, file = some opened ∧
          0 < opened.file_size ∧ opened.reserve_succeeds = false)) := by
  have hclamp : 1 ≤ (if n ≤ 0 then (1 : Int) else n) := by split <;> omega
  refine ⟨rfl, fun g hg => (fromFile_eq_some hg).1, hclamp, ?_, fun _ => rfl, ?_, rfl,
    fun g hg => (fromFile_eq_some hg).1, fromFile_eq_none_iff file filename n from_file⟩
  · intro g hg
    rw [(fromFile_eq_some hg).1]
    exact hclamp
  · intro m
    unfold CharacterGrid.fromFile
    cases from_file with
    | false => rfl
    | true =>
      simp only [if_true, Option.map_map]
      rfl

/-- The items of every constructed grid hold no whitespace. -/
theorem Constructed.no_whitespace {g : CharacterGrid} (hg : Constructed g) :
    ∀ ch ∈ g.items_, isspace ch = false := by
  have hfilter : ∀ (l : List Char), ∀ ch ∈ l.filter (fun ch => !isspace ch),
      isspace ch = false := by
    intro l ch hch
    have h := (List.mem_filter.mp hch).2
    simpa using h
  rcases hg with ⟨s, n, _, rfl⟩ | ⟨f, s, n, b, _, hsome⟩
  · rw [fromString_items]
    exact hfilter s
  · obtain ⟨_, _, text, htext⟩ := fromFile_eq_some hsome
    rw [htext]
    exact hfilter text

/-! ## The claims, continued -/

/-- C11.  For every source string the items of the constructed grid are exactly the
characters of the source that are not whitespace, in their order: the items are the
source filtered by `isspace`, a sublist of the source; `isspace` holds exactly for space,
tab, line feed, vertical tab, form feed and carriage return; no item is whitespace; and
the grid is empty exactly when every character of the source is whitespace. -/
theorem fromString_items_are_non_whitespace (input_string : List Char) (num_columns : Int) :
    (CharacterGrid.fromString input_string num_columns).items_ =
        input_string.filter (fun ch => !isspace ch) ∧
      List.Sublist (CharacterGrid.fromString input_string num_columns).items_ input_string ∧
      (∀ ch : Char, isspace ch = true ↔
        (ch = Char.ofNat 32 ∨ ch = Char.ofNat 9 ∨ ch = Char.ofNat 10 ∨ ch = Char.ofNat 11 ∨
          ch = Char.ofNat 12 ∨ ch = Char.ofNat 13)) ∧
      (∀ ch ∈ (CharacterGrid.fromString input_string num_columns).items_,
        isspace ch = false) ∧
      ((CharacterGrid.fromString input_string num_columns).items_ = [] ↔
        ∀ ch ∈ input_string, isspace ch = true) := by
  have hto : ∀ (ch : Char) (n : Nat), ch.toNat = n → ch = Char.ofNat n := by
    intro ch n h
    rw [← h, Char.ofNat_toNat]
  refine ⟨fromString_items _ _, ?_, ?_, ?_, ?_⟩
  · rw [fromString_items]
    exact List.filter_sublist _
  · intro ch
    unfold isspace
    simp only [Bool.or_eq_true, beq_iff_eq]
    constructor
    · rintro (((((h | h) | h) | h) | h) | h)
      · exact Or.inl (hto _ _ h)
      · exact Or.inr (Or.inl (hto _ _ h))
      · exact Or.inr (Or.inr (Or.inl (hto _ _ h)))
      · exact Or.inr (Or.inr (Or.inr (Or.inl (hto _ _ h))))
      · exact Or.inr (Or.inr (Or.inr (Or.inr (Or.inl (hto _ _ h)))))
      · exact Or.inr (Or.inr (Or.inr (Or.inr (Or.inr (hto _ _ h)))))
    · rintro (h | h | h | h | h | h) <;> subst h <;> decide
  · intro ch hch
    rw [fromString_items] at hch
    have h := (List.mem_filter.mp hch).2
    simpa using h
  · rw [fromString_items, List.filter_eq_nil_iff]
    constructor
    · intro h ch hch
      have := h ch hch
      simpa using this
    · intro h ch hch
      simp [h ch hch]

/-- C15 (the claim fails on a file whose size the stream cannot tell).  A readable file
with the contents `abc` for which `tellg()` returns `-1` gives the empty grid, while the
string `abc` gives the items `a`, `b`, `c`. -/
theorem fromFile_of_unknown_size_is_empty :
    (CharacterGrid.fromFile
        (some { bytes := "abc".toList, file_size := -1, reserve_succeeds := true })
        "pipe".toList 3 true).map CharacterGrid.items_ = some [] ∧
      (CharacterGrid.fromString "abc".toList 3).items_ = ['a', 'b', 'c'] := by
  constructor <;> decide

/-- C15, amended.  For every byte sequence, when the stream reports a positive size for
the file and the reservation of that many items succeeds, reading the file in chunks of
at most `BUFFER_SIZE = 8192` bytes and filtering each chunk succeeds and gives a grid with
the same items as the grid built from the contents as a string. -/
theorem fromFile_items_eq_fromString (opened : OpenedFile) (filename : List Char)
    (num_columns : Int) (hsize : 0 < opened.file_size)
    (hmem : opened.reserve_succeeds = true) :
    initializeFromFile [] (some opened) =
        some (true, (CharacterGrid.fromString opened.bytes num_columns).items_) ∧
      (∃ g : CharacterGrid,
        CharacterGrid.fromFile (some opened) filename num_columns true = some g ∧
          g.items_ = (CharacterGrid.fromString opened.bytes num_columns).items_) := by
  have hinit : initializeFromFile [] (some opened) =
      some (true, (CharacterGrid.fromString opened.bytes num_columns).items_) := by
    rw [initializeFromFile_opened, if_neg (by omega), if_pos hmem, fromString_items]
  refine ⟨hinit, ?_⟩
  unfold CharacterGrid.fromFile
  rw [hinit]
  exact ⟨_, rfl, rfl⟩

/-- C15, amended, on a file of six bytes: the items are `a`, `b`, `c`, as for the string
with the same contents. -/
theorem fromFile_items_eq_fromString_witness :
    initializeFromFile []
        (some { bytes := "a b  c".toList, file_size := 6, reserve_succeeds := true }) =
      some (true, ['a', 'b', 'c']) :=
  (fromFile_items_eq_fromString
    { bytes := "a b  c".toList, file_size := 6, reserve_succeeds := true } [] 1
    (by decide) rfl).1.trans (by decide)

/-! ## Persistence: the shape of the text -/

/-- The loop of `saveToFile` writes the items with a line feed after every position whose
successor is a multiple of the column count, as long as the counter does not wrap. -/
theorem saveLoop_eq_withRowBreaks (cols : Int) (rest : List Char) (i : Nat) (out : List Char)
    (hfit : i + rest.length < SIZE_MOD) :
    saveLoop cols i rest out = out ++ withRowBreaks (toSizeT cols) i rest := by
  induction rest generalizing i out with
  | nil => simp [saveLoop, withRowBreaks]
  | cons ch rest ih =>
    have hlen : (ch :: rest).length = rest.length + 1 := rfl
    have hnext : sizeAdd i 1 = i + 1 := by
      unfold sizeAdd
      exact Nat.mod_eq_of_lt (by omega)
    simp only [saveLoop, withRowBreaks, hnext]
    rw [ih (i + 1) _ (by omega)]
    split <;> simp

theorem succ_div_eq (i k : Nat) :
    (i + 1) / k = i / k + if (i + 1) % k = 0 then 1 else 0 := by
  rw [Nat.succ_div]
  by_cases h : (i + 1) % k = 0
  · rw [if_pos h, if_pos (Nat.dvd_of_mod_eq_zero h)]
  · rw [if_neg h, if_neg (fun hd => h (Nat.mod_eq_zero_of_dvd hd))]

theorem length_withRowBreaks (k : Nat) (rest : List Char) (i : Nat) :
    (withRowBreaks k i rest).length = rest.length + ((i + rest.length) / k - i / k) := by
  induction rest generalizing i with
  | nil => simp [withRowBreaks]
  | cons ch rest ih =>
    have hstep := succ_div_eq i k
    have hmono : (i + 1) / k ≤ (i + 1 + rest.length) / k :=
      Nat.div_le_div_right (by omega)
    have hidx : i + (rest.length + 1) = i + 1 + rest.length := by omega
    simp only [withRowBreaks, List.length_cons]
    split
    · rename_i hbreak
      rw [if_pos hbreak] at hstep
      simp only [List.length_cons, ih (i + 1), hidx]
      omega
    · rename_i hbreak
      rw [if_neg hbreak] at hstep
      simp only [List.length_cons, ih (i + 1), hidx]
      omega

theorem count_withRowBreaks (k : Nat) (rest : List Char) (i : Nat)
    (hnl : Char.ofNat 10 ∉ rest) :
    (withRowBreaks k i rest).count (Char.ofNat 10) = (i + rest.length) / k - i / k := by
  induction rest generalizing i with
  | nil => simp [withRowBreaks]
  | cons ch rest ih =>
    have hstep := succ_div_eq i k
    have hmono : (i + 1) / k ≤ (i + 1 + rest.length) / k :=
      Nat.div_le_div_right (by omega)
    have hidx : i + (rest.length + 1) = i + 1 + rest.length := by omega
    have hch : ch ≠ Char.ofNat 10 := fun h => hnl (by simp [h])
    have hrest : Char.ofNat 10 ∉ rest := fun h => hnl (List.mem_cons_of_mem _ h)
    simp only [withRowBreaks, List.length_cons]
    split
    · rename_i hbreak
      rw [if_pos hbreak] at hstep
      rw [List.count_cons_of_ne hch.symm, List.count_cons_self, ih (i + 1) hrest, hidx]
      omega
    · rename_i hbreak
      rw [if_neg hbreak] at hstep
      rw [List.count_cons_of_ne hch.symm, ih (i + 1) hrest, hidx]
      omega

theorem withRowBreaks_append (k : Nat) (l₁ l₂ : List Char) (i : Nat) :
    withRowBreaks k i (l₁ ++ l₂) =
      withRowBreaks k i l₁ ++ withRowBreaks k (i + l₁.length) l₂ := by
  induction l₁ generalizing i with
  | nil => simp [withRowBreaks]
  | cons ch rest ih =>
    have hidx : i + (rest.length + 1) = i + 1 + rest.length := by omega
    simp only [List.cons_append, withRowBreaks, List.length_cons, hidx]
    split <;> simp [ih (i + 1)]

/-- No line feed is written inside a row. -/
theorem withRowBreaks_inside_row (k : Nat) (l : List Char) (i : Nat)
    (hrow : i % k + l.length < k) : withRowBreaks k i l = l := by
  induction l generalizing i with
  | nil => simp [withRowBreaks]
  | cons ch rest ih =>
    have hlen : (ch :: rest).length = rest.length + 1 := rfl
    have hmod : (i + 1) % k = i % k + 1 := by
      rw [Nat.add_mod]
      have h1 : 1 % k = 1 := Nat.mod_eq_of_lt (by omega)
      rw [h1]
      exact Nat.mod_eq_of_lt (by omega)
    simp only [withRowBreaks]
    rw [if_neg (by omega), ih (i + 1) (by omega)]

/-- A full row is written followed by one line feed. -/
theorem withRowBreaks_full_row (k : Nat) (l : List Char) (i : Nat) (hk : 1 ≤ k)
    (hstart : i % k = 0) (hlen : l.length = k) :
    withRowBreaks k i l = l ++ [Char.ofNat 10] := by
  have hne : l ≠ [] := by
    intro h
    rw [h] at hlen
    simp at hlen
    omega
  have hsplit := List.dropLast_concat_getLast hne
  have hinit : l.dropLast.length = k - 1 := by rw [List.length_dropLast, hlen]
  have hlast : (i + (k - 1) + 1) % k = 0 := by
    have : i + (k - 1) + 1 = i + k := by omega
    rw [this, Nat.add_mod_right, hstart]
  conv_lhs => rw [← hsplit]
  rw [withRowBreaks_append, withRowBreaks_inside_row k _ i (by omega), hinit]
  simp only [withRowBreaks, if_pos hlast]
  conv_rhs => rw [← hsplit]
  simp

/-- After `m` full rows, that is `m * (k + 1)` characters of the text, the text goes on
with the items from position `m * k` on. -/
theorem drop_withRowBreaks_rows (k : Nat) (hk : 1 ≤ k) (items : List Char) (m : Nat)
    (hm : m * k ≤ items.length) :
    (withRowBreaks k 0 items).drop (m * (k + 1)) =
      withRowBreaks k (m * k) (items.drop (m * k)) := by
  have hsplit := List.take_append_drop (m * k) items
  have htake : (items.take (m * k)).length = m * k := by
    rw [List.length_take]
    omega
  have hprefix : (withRowBreaks k 0 (items.take (m * k))).length = m * (k + 1) := by
    rw [length_withRowBreaks, htake, Nat.zero_add, Nat.zero_div, Nat.sub_zero,
      Nat.mul_div_cancel _ (by omega : 0 < k), Nat.mul_add, Nat.mul_one]
  conv_lhs => rw [← hsplit]
  rw [withRowBreaks_append, htake, Nat.zero_add]
  exact List.drop_left' hprefix

/-- C12.  For every constructed grid (whose number of items is a `size_t` value) the text
written by `saveToFile` is the items in order with one line feed after each position `i`
such that `i + 1` is a multiple of the column count `k`, and nothing else: the text has
exactly `length / k` line feeds and `length + length / k` characters; for every
`j < length / k` the `k + 1` characters from position `j * (k + 1)` on are the `k` items
from position `j * k` on followed by a line feed; what follows the last line feed is the
remaining fewer than `k` items, without padding; and no item is a line feed. -/
theorem saveToFile_text (g : CharacterGrid) (hg : Constructed g)
    (hsize : g.items_.length < SIZE_MOD) :
    saveToFile g = withRowBreaks g.num_columns_.toNat 0 g.items_ ∧
      (saveToFile g).count (Char.ofNat 10) = g.items_.length / g.num_columns_.toNat ∧
      (saveToFile g).length =
        g.items_.length + g.items_.length / g.num_columns_.toNat ∧
      (∀ j : Nat, j < g.items_.length / g.num_columns_.toNat →
        ((g.items_.drop (j * g.num_columns_.toNat)).take g.num_columns_.toNat).length =
            g.num_columns_.toNat ∧
          ((saveToFile g).drop (j * (g.num_columns_.toNat + 1))).take
              (g.num_columns_.toNat + 1) =
            (g.items_.drop (j * g.num_columns_.toNat)).take g.num_columns_.toNat ++
              [Char.ofNat 10]) ∧
      (saveToFile g).drop (g.items_.length / g.num_columns_.toNat *
          (g.num_columns_.toNat + 1)) =
        g.items_.drop (g.items_.length / g.num_columns_.toNat * g.num_columns_.toNat) ∧
      (g.items_.drop (g.items_.length / g.num_columns_.toNat *
          g.num_columns_.toNat)).length < g.num_columns_.toNat ∧
      (∀ ch ∈ g.items_, ch ≠ Char.ofNat 10) := by
  obtain ⟨hn1, hn2, _⟩ := hg.columns
  have hk : toSizeT g.num_columns_ = g.num_columns_.toNat :=
    toSizeT_eq_toNat (by omega) hn2
  have hk1 : 1 ≤ g.num_columns_.toNat := by omega
  have hnl : ∀ ch ∈ g.items_, ch ≠ Char.ofNat 10 := by
    intro ch hch heq
    have hsp := hg.no_whitespace ch hch
    rw [heq, isspace_newline] at hsp
    cases hsp
  have hnotin : Char.ofNat 10 ∉ g.items_ := fun h => hnl _ h rfl
  have htext : saveToFile g = withRowBreaks g.num_columns_.toNat 0 g.items_ := by
    unfold saveToFile
    rw [saveLoop_eq_withRowBreaks _ _ _ _ (by omega), hk, List.nil_append]
  generalize g.num_columns_.toNat = k at *
  generalize g.items_ = items at *
  have hq : items.length / k * k ≤ items.length := Nat.div_mul_le_self _ _
  have hrem : items.length - items.length / k * k < k := by
    have hdm := Nat.div_add_mod items.length k
    have hmod := Nat.mod_lt items.length (by omega : k > 0)
    rw [Nat.mul_comm] at hdm
    omega
  refine ⟨htext, ?_, ?_, ?_, ?_, ?_, hnl⟩
  · rw [htext, count_withRowBreaks k items 0 hnotin]
    simp
  · rw [htext, length_withRowBreaks]
    simp
  · intro j hj
    have hrows : (j + 1) * k ≤ items.length / k * k := Nat.mul_le_mul_right k hj
    have hjk : j * k + k ≤ items.length := by
      rw [Nat.succ_mul] at hrows
      omega
    have hrow : ((items.drop (j * k)).take k).length = k := by
      rw [List.length_take, List.length_drop]
      omega
    refine ⟨hrow, ?_⟩
    rw [htext, drop_withRowBreaks_rows k hk1 items j (by omega)]
    have hsplit := List.take_append_drop k (items.drop (j * k))
    conv_lhs => rw [← hsplit]
    rw [withRowBreaks_append,
      withRowBreaks_full_row k _ (j * k) hk1 (Nat.mul_mod_left j k) hrow]
    exact List.take_left' (by rw [List.length_append, hrow]; rfl)
  · rw [htext, drop_withRowBreaks_rows k hk1 items _ hq]
    apply withRowBreaks_inside_row
    rw [Nat.mul_mod_left, List.length_drop]
    omega
  · rw [List.length_drop]
    exact hrem

/-- C12 on the grid built from `abcdefg` with three columns: the text is `abc`, line feed,
`def`, line feed, `g`. -/
theorem saveToFile_text_witness :
    saveToFile (CharacterGrid.fromString "abcdefg".toList 3) =
        withRowBreaks 3 0 "abcdefg".toList ∧
      saveToFile (CharacterGrid.fromString "abcdefg".toList 3) =
        ['a', 'b', 'c', Char.ofNat 10, 'd', 'e', 'f', Char.ofNat 10, 'g'] :=
  ⟨(saveToFile_text (CharacterGrid.fromString "abcdefg".toList 3)
      (Or.inl ⟨_, _, by decide, rfl⟩) (by decide)).1, by decide⟩

/-! ## Display: basic facts -/

/-- A cell of a displayed row that lies in bounds shows, after two spaces, the item at
the position `r * k + c` if there is one and the padding character `-` otherwise. -/
theorem displayCell_in_bounds {g : CharacterGrid} (hg : Constructed g) (r c : Nat)
    (hr : (r : Int) < totalRows g) (hc : c < g.num_columns_.toNat) :
    displayCell g (r : Int) (c : Int) =
      [' ', ' ', if h : r * g.num_columns_.toNat + c < g.items_.length
        then g.items_[r * g.num_columns_.toNat + c] else '-'] := by
  obtain ⟨hn1, _, hpad⟩ := hg.columns
  have hk : ((g.num_columns_.toNat : Nat) : Int) = g.num_columns_ :=
    Int.toNat_of_nonneg (by omega)
  have hidx := linear_index_of_in_bounds hg (Int.ofNat_nonneg r) hr (Int.ofNat_nonneg c)
    (by omega : (c : Int) < g.num_columns_)
  have hnat : ((r : Int) * g.num_columns_ + (c : Int)).toNat =
      r * g.num_columns_.toNat + c := by
    rw [← hk]
    norm_cast
  rw [hnat] at hidx
  unfold displayCell
  by_cases hlt : r * g.num_columns_.toNat + c < g.items_.length
  · simp only [hidx, dif_pos hlt]
    rfl
  · simp only [hidx, dif_neg hlt, hpad]
    rfl

theorem flatMap_intRange {β : Type} (bound : Int) (f : Int → List β) :
    (intRange bound).flatMap f = (List.range bound.toNat).flatMap (fun x : Nat => f (x : Int)) := by
  unfold intRange
  rw [List.flatMap_map]

theorem map_intRange {β : Type} (bound : Int) (f : Int → β) :
    (intRange bound).map f = (List.range bound.toNat).map (fun x : Nat => f (x : Int)) := by
  unfold intRange
  rw [List.map_map]
  rfl

/-- C13 (the claim fails on the empty grid).  For the empty grid with three columns
`displayGrid` writes the single line `Grid is empty.`: there is no header row listing the
column indices `0`, `1`, `2`. -/
theorem displayGrid_empty_has_no_header :
    displayGrid (CharacterGrid.fromString [] 3) = ["Grid is empty.".toList] ∧
      ¬ (∃ rows : List (List Char), displayGrid (CharacterGrid.fromString [] 3) =
        ("   ".toList ++ (List.range 3).flatMap (fun c : Nat => setw 3 (intText (c : Int)))) ::
          rows) := by
  have hdisplay : displayGrid (CharacterGrid.fromString [] 3) = ["Grid is empty.".toList] := by
    decide
  refine ⟨hdisplay, ?_⟩
  rintro ⟨rows, h⟩
  rw [hdisplay] at h
  have hhead := (List.cons.inj h).1
  revert hhead
  decide

/-- The lines of `displayGrid`, with the number of rows that `totalRows` returns.  For
the empty grid `displayGrid` writes the single line
`Grid is empty.`.  For every constructed grid that is not empty it writes a header row
listing the column indices `0` to `num_columns_ - 1`, each in a field of width 3, then
one row for each `r` with `0 ≤ r < totalRows`, which holds the row number and the
`num_columns_` cells of the row, each made of two spaces and one character, the item at
`r * num_columns_ + c` if that position is below the number of items and the padding
character `-` otherwise, and then an empty line. -/
theorem displayGrid_lines_of_totalRows (g : CharacterGrid) (hg : Constructed g) :
    (g.items_ = [] → displayGrid g = ["Grid is empty.".toList]) ∧
      (g.items_ ≠ [] →
        displayGrid g =
          ("   ".toList ++
            (List.range g.num_columns_.toNat).flatMap
              (fun c : Nat => setw 3 (intText (c : Int)))) ::
          (List.range (totalRows g).toNat).map (fun r : Nat =>
            setw 3 (intText (r : Int)) ++ [' '] ++
              (List.range g.num_columns_.toNat).flatMap (fun c : Nat =>
                [' ', ' ', if h : r * g.num_columns_.toNat + c < g.items_.length
                  then g.items_[r * g.num_columns_.toNat + c] else '-'])) ++ [[]]) := by
  constructor
  · intro hempty
    unfold displayGrid
    rw [hempty]
    rfl
  · intro hne
    have hnotempty : g.items_.isEmpty = false := by
      cases hitems : g.items_ with
      | nil => exact absurd hitems hne
      | cons _ _ => rfl
    unfold displayGrid
    rw [hnotempty]
    simp only [Bool.false_eq_true, if_false]
    rw [flatMap_intRange, map_intRange]
    congr 2
    apply List.map_congr_left
    intro r hr
    have hrow : (r : Int) < totalRows g := by
      have := List.mem_range.mp hr
      omega
    rw [flatMap_intRange]
    congr 1
    apply List.flatMap_congr
    intro c hc
    exact displayCell_in_bounds hg r c hrow (List.mem_range.mp hc)

/-! ## Absence of erroneous operations: basic facts -/

theorem Constructed.toSizeT_columns_pos {g : CharacterGrid} (hg : Constructed g) :
    toSizeT g.num_columns_ ≠ 0 := by
  obtain ⟨hn1, hn2, _⟩ := hg.columns
  rw [toSizeT_eq_toNat (by omega) hn2]
  omega

theorem totalRowsChecked_eq {g : CharacterGrid} (hg : Constructed g) :
    totalRowsChecked g = some (totalRows g) := by
  unfold totalRowsChecked totalRows checkedDiv
  split
  · rfl
  · rw [if_neg hg.toSizeT_columns_pos]
    rfl

theorem outOfBoundsChecked_eq {g : CharacterGrid} (hg : Constructed g) (r c : Int) :
    outOfBoundsChecked g r c =
      some (decide (r < 0 ∨ c < 0 ∨ r ≥ totalRows g ∨ c ≥ g.num_columns_)) := by
  unfold outOfBoundsChecked
  rw [totalRowsChecked_eq hg]
  by_cases hr : r < 0
  · simp [hr]
  · by_cases hc : c < 0
    · simp [hc]
    · by_cases hrows : r ≥ totalRows g
      · simp [hr, hc, hrows]
      · by_cases hcols : c ≥ g.num_columns_
        · simp [hr, hc, hcols]
        · simp [hr, hc, hrows, hcols]

theorem checkedAt_of_lt {items_ : List Char} {k : Nat} (h : k < items_.length) :
    checkedAt items_ k = some (items_[k]) := by
  unfold checkedAt
  rw [dif_pos h]

theorem saveLoopChecked_eq (cols : Int) (hcols : toSizeT cols ≠ 0) (rest : List Char)
    (i : Nat) (out : List Char) :
    saveLoopChecked cols i rest out = some (saveLoop cols i rest out) := by
  induction rest generalizing i out with
  | nil => rfl
  | cons ch rest ih =>
    simp only [saveLoopChecked, saveLoop, checkedMod, if_neg hcols, Option.some_bind]
    exact ih _ _

/-- C14.  For every constructed grid and all integer arguments, the methods `totalRows`,
`getElementAt`, `getElementAtIndex`, `indexToCoordinates`, `coordinatesToIndex` and
`saveToFile` never reach an access outside `items_` nor a division or remainder by zero:
the embedding that checks these operations returns `some` of the result of the method, in
which failure is the result `none`, that is the value `false`. -/
theorem methods_reach_no_erroneous_operation (g : CharacterGrid) (hg : Constructed g)
    (r c index : Int) :
    totalRowsChecked g = some (totalRows g) ∧
      getElementAtChecked g r c = some (getElementAt g r c) ∧
      getElementAtIndexChecked g index = some (getElementAtIndex g index) ∧
      indexToCoordinatesChecked g index = some (indexToCoordinates g index) ∧
      coordinatesToIndexChecked g r c = some (coordinatesToIndex g r c) ∧
      saveToFileChecked g = some (saveToFile g) := by
  obtain ⟨hn1, hn2, _⟩ := hg.columns
  refine ⟨totalRowsChecked_eq hg, ?_, ?_, ?_, ?_, ?_⟩
  · unfold getElementAtChecked getElementAt
    rw [outOfBoundsChecked_eq hg]
    by_cases hguard : r < 0 ∨ c < 0 ∨ r ≥ totalRows g ∨ c ≥ g.num_columns_
    · simp [hguard]
    · simp only [Option.some_bind, hguard, decide_False, Bool.false_eq_true, if_false]
      split
      · rename_i hlt
        rw [checkedAt_of_lt hlt]
        rfl
      · rfl
  · unfold getElementAtIndexChecked getElementAtIndex
    by_cases hneg : index < 0
    · simp [hneg]
    · by_cases hbig : toSizeT index ≥ g.items_.length
      · simp [hneg, hbig]
      · have hlt : toSizeT index < g.items_.length := by omega
        rw [if_neg (by omega), if_neg hneg, dif_neg hbig, checkedAt_of_lt hlt]
        rfl
  · unfold indexToCoordinatesChecked indexToCoordinates checkedIntDiv checkedIntMod
    split
    · rfl
    · have hdiv : ¬ (g.num_columns_ = 0 ∨ (index = INT_MIN ∧ g.num_columns_ = -1)) := by
        omega
      simp only [if_neg hdiv, Option.some_bind, Option.map_some']
  · unfold coordinatesToIndexChecked coordinatesToIndex
    rw [outOfBoundsChecked_eq hg]
    by_cases hguard : r < 0 ∨ c < 0 ∨ r ≥ totalRows g ∨ c ≥ g.num_columns_
    · simp [hguard]
    · simp [hguard]
  · unfold saveToFileChecked saveToFile
    exact saveLoopChecked_eq _ hg.toSizeT_columns_pos _ _ _

/-- C14 on the grid built from `abc` with four columns; without the clamp of the
constructor, a column count `0` makes `indexToCoordinates` divide by zero. -/
theorem methods_reach_no_erroneous_operation_witness :
    getElementAtChecked (CharacterGrid.fromString "abc".toList 4) 0 3 = some (some '-') ∧
      indexToCoordinatesChecked (CharacterGrid.fromString "abc".toList 4) 7 = some none ∧
      indexToCoordinatesChecked
        { items_ := "abc".toList, num_columns_ := 0, padding_char_ := '-' } 1 = none :=
  ⟨(methods_reach_no_erroneous_operation (CharacterGrid.fromString "abc".toList 4)
      (Or.inl ⟨_, _, by decide, rfl⟩) 0 3 7).2.1,
   (methods_reach_no_erroneous_operation (CharacterGrid.fromString "abc".toList 4)
      (Or.inl ⟨_, _, by decide, rfl⟩) 0 3 7).2.2.2.1,
   by decide⟩

/-! ## Coordinates and indices: basic facts -/

/-- For in-bounds coordinates of a constructed grid, `getElementAt` returns the item at
`r * num_columns_ + c` if there is one and the padding character `-` otherwise. -/
theorem getElementAt_in_bounds {g : CharacterGrid} (hg : Constructed g) {r c : Int}
    (hr0 : 0 ≤ r) (hr1 : r < totalRows g) (hc0 : 0 ≤ c) (hc1 : c < g.num_columns_) :
    getElementAt g r c =
      some (if h : (r * g.num_columns_ + c).toNat < g.items_.length
        then g.items_[(r * g.num_columns_ + c).toNat] else '-') := by
  have hidx := linear_index_of_in_bounds hg hr0 hr1 hc0 hc1
  obtain ⟨_, _, hpad⟩ := hg.columns
  unfold getElementAt
  rw [if_neg (by omega)]
  by_cases hlt : (r * g.num_columns_ + c).toNat < g.items_.length
  · simp only [hidx, dif_pos hlt]
  · simp only [hidx, dif_neg hlt, hpad]

/-- For an index of type `int` that is not negative, `getElementAtIndex` is the lookup of
the position in the items. -/
theorem getElementAtIndex_eq_lookup (g : CharacterGrid) {index : Int} (h0 : 0 ≤ index)
    (h1 : index ≤ INT_MAX) : getElementAtIndex g index = g.items_[index.toNat]? := by
  have hnat := toSizeT_eq_toNat h0 h1
  unfold getElementAtIndex
  rw [if_neg (by omega)]
  by_cases hbig : toSizeT index ≥ g.items_.length
  · rw [dif_pos hbig, List.getElem?_eq_none (by omega)]
  · rw [dif_neg hbig]
    simp only [hnat]
    rw [List.getElem?_eq_getElem (by omega)]

/-- An index of type `int` that is at least the number of items is rejected by
`getElementAtIndex` and by `indexToCoordinates`. -/
theorem index_rejected_of_ge (g : CharacterGrid) {index : Int} (h1 : index ≤ INT_MAX)
    (hge : (g.items_.length : Int) ≤ index) :
    getElementAtIndex g index = none ∧ indexToCoordinates g index = none := by
  have h0 : 0 ≤ index := by omega
  have hcast := toSizeT_cast h0 h1
  constructor
  · rw [getElementAtIndex_eq_lookup g h0 h1]
    exact List.getElem?_eq_none (by omega)
  · unfold indexToCoordinates
    rw [if_pos (Or.inr (by omega))]

/-- In a constructed grid, `coordinatesToIndex` succeeds with `i` exactly when the
coordinates are in bounds, `i` is `r * num_columns_ + c` and `i` is at most `INT_MAX`. -/
theorem coordinatesToIndex_eq_some_iff {g : CharacterGrid} (hg : Constructed g)
    (r c i : Int) :
    coordinatesToIndex g r c = some i ↔
      (0 ≤ r ∧ r < totalRows g ∧ 0 ≤ c ∧ c < g.num_columns_ ∧
        i = r * g.num_columns_ + c ∧ i ≤ INT_MAX) := by
  by_cases hguard : r < 0 ∨ c < 0 ∨ r ≥ totalRows g ∨ c ≥ g.num_columns_
  · have hnone : coordinatesToIndex g r c = none := by
      unfold coordinatesToIndex
      rw [if_pos hguard]
    rw [hnone]
    constructor
    · intro h; cases h
    · intro h; omega
  · rw [coordinatesToIndex_in_bounds hg (by omega) (by omega) (by omega) (by omega)]
    by_cases hover : r * g.num_columns_ + c > INT_MAX
    · rw [if_pos hover]
      constructor
      · intro h; cases h
      · rintro ⟨_, _, _, _, hi, hmax⟩
        omega
    · rw [if_neg hover]
      constructor
      · intro h
        have hi := (Option.some.inj h).symm
        refine ⟨by omega, by omega, by omega, by omega, hi, by omega⟩
      · rintro ⟨_, _, _, _, hi, _⟩
        rw [hi]

/-- For a constructed grid with at most `INT_MAX` items, the coordinates of a valid index
are in bounds and `getElementAt` returns there the same item as `getElementAtIndex`. -/
theorem getElementAt_eq_getElementAtIndex_of_small {g : CharacterGrid} (hg : Constructed g)
    (hsmall : g.items_.length ≤ 2147483647) {index : Int} (h0 : 0 ≤ index)
    (hlt : index < (g.items_.length : Int)) :
    ∃ (row col : Int) (ch : Char), indexToCoordinates g index = some (row, col) ∧
      getElementAt g row col = some ch ∧ getElementAtIndex g index = some ch := by
  obtain ⟨row, col, hcoord, hback⟩ := roundtrip_index_of_small hg hsmall h0 hlt
  obtain ⟨hr0, hr1, hc0, hc1, hi, hmax⟩ := (coordinatesToIndex_eq_some_iff hg row col index).mp hback
  have hnat : index.toNat < g.items_.length := by omega
  refine ⟨row, col, g.items_[index.toNat], hcoord, ?_, ?_⟩
  · rw [getElementAt_in_bounds hg hr0 hr1 hc0 hc1]
    simp only [← hi, dif_pos hnat]
  · rw [getElementAtIndex_eq_lookup g h0 hmax, List.getElem?_eq_getElem hnat]

/-- For a constructed grid that has between `1` and `INT_MAX` items, the items fill all
rows but the last and at least one cell of the last row. -/
theorem rows_bound_items_of_small {g : CharacterGrid} (hg : Constructed g)
    (hne : g.items_ ≠ []) (hsmall : g.items_.length ≤ 2147483647) :
    (totalRows g - 1) * g.num_columns_ < (g.items_.length : Int) ∧
      (g.items_.length : Int) ≤ totalRows g * g.num_columns_ := by
  obtain ⟨hn1, hn2, _⟩ := hg.columns
  have hlen : 1 ≤ g.items_.length := List.length_pos.mpr hne
  have hk1 : 1 ≤ g.num_columns_.toNat := by omega
  have hk : ((g.num_columns_.toNat : Nat) : Int) = g.num_columns_ :=
    Int.toNat_of_nonneg (by omega)
  obtain ⟨hlt, hle, _, hq1⟩ := ceil_div_bounds hlen hk1
  rw [totalRows_eq_totalRowsOf, totalRowsOf_of_small hlen hsmall hn1 hn2]
  generalize (g.items_.length + g.num_columns_.toNat - 1) / g.num_columns_.toNat = q at *
  have hlt2 : ((g.num_columns_.toNat * q : Nat) : Int) <
      ((g.items_.length + g.num_columns_.toNat : Nat) : Int) := by exact_mod_cast hlt
  have hle2 : ((g.items_.length : Nat) : Int) ≤ ((g.num_columns_.toNat * q : Nat) : Int) := by
    exact_mod_cast hle
  rw [Nat.cast_mul, hk] at hle2
  rw [Nat.cast_mul, Nat.cast_add, hk] at hlt2
  constructor
  · rw [sub_mul, one_mul, mul_comm]
    omega
  · rw [mul_comm]
    exact hle2

/-! ## The claims, continued: coordinates and indices -/

/-- C16 (the code departs from the claim).  In the grid built from `2147483648` copies of
the letter `a` with one column, index `0` is valid, `getElementAtIndex` returns the item
`a` for it and `indexToCoordinates` maps it to `(0, 0)`, but `getElementAt` rejects
`(0, 0)`: `totalRows` is `-2147483648` there. -/
theorem coordinate_access_fails_on_large_grid :
    indexToCoordinates (CharacterGrid.fromString (List.replicate 2147483648 'a') 1) 0 =
        some (0, 0) ∧
      getElementAtIndex (CharacterGrid.fromString (List.replicate 2147483648 'a') 1) 0 =
        some 'a' ∧
      getElementAt (CharacterGrid.fromString (List.replicate 2147483648 'a') 1) 0 0 =
        none := by
  refine ⟨?_, ?_, ?_⟩
  · unfold indexToCoordinates
    rw [fromString_replicate_length]
    rfl
  · rw [getElementAtIndex_eq_lookup _ (by decide) (by decide), fromString_replicate_items]
    exact List.getElem?_replicate_of_lt (by decide)
  · unfold getElementAt
    rw [totalRows_replicate]
    rfl

/-- C17 (the code departs from the claim).  The grid built from `2147483648` copies of
the letter `a` with one column is not empty, `totalRows` is `-2147483648` for it, and
`items.length ≤ totalRows * num_columns_` fails. -/
theorem rows_do_not_bound_items_on_large_grid :
    (CharacterGrid.fromString (List.replicate 2147483648 'a') 1).items_ ≠ [] ∧
      totalRows (CharacterGrid.fromString (List.replicate 2147483648 'a') 1) =
        -2147483648 ∧
      ¬ (((CharacterGrid.fromString (List.replicate 2147483648 'a') 1).items_.length : Int) ≤
        totalRows (CharacterGrid.fromString (List.replicate 2147483648 'a') 1) *
          (CharacterGrid.fromString (List.replicate 2147483648 'a') 1).num_columns_) := by
  have hrows : totalRows (CharacterGrid.fromString (List.replicate 2147483648 'a') 1) =
      -2147483648 := by
    rw [totalRows_replicate]
    decide
  refine ⟨?_, hrows, ?_⟩
  · intro h
    have hlen := fromString_replicate_length 2147483648 1
    rw [h] at hlen
    exact absurd hlen (by decide)
  · rw [hrows, fromString_replicate_length]
    decide

/-- The quotient and the remainder of `r * n + c` by `n`, when `0 ≤ c < n`. -/
theorem ediv_emod_of_linear {r c n : Int} (hc0 : 0 ≤ c) (hc1 : c < n) :
    (r * n + c) / n = r ∧ (r * n + c) % n = c := by
  apply (Int.ediv_emod_unique (by omega : 0 < n)).mpr
  refine ⟨?_, hc0, hc1⟩
  rw [mul_comm n r, add_comm]

/-- C18.  For every constructed grid, if `coordinatesToIndex(row, col)` succeeds with an
index `i`, then `(row, col)` is in bounds; if moreover `i` is below the number of items,
`indexToCoordinates(i)` succeeds and returns exactly `(row, col)`; and no other
coordinates are given the index `i`, so `coordinatesToIndex` is injective. -/
theorem indexToCoordinates_inverts_coordinatesToIndex (g : CharacterGrid)
    (hg : Constructed g) (row col i : Int) (hi : coordinatesToIndex g row col = some i) :
    (0 ≤ row ∧ row < totalRows g ∧ 0 ≤ col ∧ col < g.num_columns_) ∧
      (i < (g.items_.length : Int) → indexToCoordinates g i = some (row, col)) ∧
      (∀ row2 col2 : Int, coordinatesToIndex g row2 col2 = some i →
        row2 = row ∧ col2 = col) := by
  obtain ⟨hn1, _, _⟩ := hg.columns
  obtain ⟨hr0, hr1, hc0, hc1, hval, hmax⟩ := (coordinatesToIndex_eq_some_iff hg row col i).mp hi
  have hnonneg : 0 ≤ row * g.num_columns_ + col := by positivity
  obtain ⟨hdiv, hmod⟩ := ediv_emod_of_linear (r := row) hc0 hc1
  refine ⟨⟨hr0, hr1, hc0, hc1⟩, ?_, ?_⟩
  · intro hlt
    rw [indexToCoordinates_eq_some hn1 (by omega) hmax hlt, hval, hdiv, hmod]
  · intro row2 col2 hi2
    obtain ⟨_, _, hc0', hc1', hval2, _⟩ := (coordinatesToIndex_eq_some_iff hg row2 col2 i).mp hi2
    obtain ⟨hdiv2, hmod2⟩ := ediv_emod_of_linear (r := row2) hc0' hc1'
    rw [← hval2, hval] at hdiv2 hmod2
    rw [hdiv] at hdiv2
    rw [hmod] at hmod2
    exact ⟨hdiv2.symm, hmod2.symm⟩

/-- C18 on the grid built from `abcdef` with two columns: the cell `(2, 1)` has the
index `5`, which `indexToCoordinates` maps back to `(2, 1)`. -/
theorem indexToCoordinates_inverts_coordinatesToIndex_witness :
    coordinatesToIndex (CharacterGrid.fromString "abcdef".toList 2) 2 1 = some 5 ∧
      indexToCoordinates (CharacterGrid.fromString "abcdef".toList 2) 5 = some (2, 1) :=
  ⟨by decide,
   (indexToCoordinates_inverts_coordinatesToIndex
      (CharacterGrid.fromString "abcdef".toList 2) (Or.inl ⟨_, _, by decide, rfl⟩) 2 1 5
      (by decide)).2.1 (by decide)⟩

/-- C19 (the claim fails on a padding cell whose index exceeds `INT_MAX`).  In the grid
built from `1073741826` copies of the letter `a` with `1073741825` columns there are two
rows; the cell `(1, 1073741824)` is in bounds, its position `2147483649` is beyond the
items, so it is a padding cell and `getElementAt` returns `-` for it; but
`coordinatesToIndex` fails there, because the position exceeds `INT_MAX`, and so returns
no index at all. -/
theorem padding_cell_without_index :
    (1 < totalRows (CharacterGrid.fromString (List.replicate 1073741826 'a') 1073741825) ∧
        (1073741824 : Int) <
          (CharacterGrid.fromString (List.replicate 1073741826 'a') 1073741825).num_columns_) ∧
      ((CharacterGrid.fromString (List.replicate 1073741826 'a')
          1073741825).items_.length : Int) ≤
        1 * (CharacterGrid.fromString (List.replicate 1073741826 'a')
          1073741825).num_columns_ + 1073741824 ∧
      getElementAt (CharacterGrid.fromString (List.replicate 1073741826 'a') 1073741825)
        1 1073741824 = some '-' ∧
      coordinatesToIndex (CharacterGrid.fromString (List.replicate 1073741826 'a') 1073741825)
        1 1073741824 = none ∧
      ¬ (∃ i : Int,
        coordinatesToIndex (CharacterGrid.fromString (List.replicate 1073741826 'a')
          1073741825) 1 1073741824 = some i ∧
        ((CharacterGrid.fromString (List.replicate 1073741826 'a')
          1073741825).items_.length : Int) ≤ i) := by
  have hg : Constructed (CharacterGrid.fromString (List.replicate 1073741826 'a') 1073741825) :=
    Or.inl ⟨_, _, by decide, rfl⟩
  have hrows : totalRows (CharacterGrid.fromString (List.replicate 1073741826 'a')
      1073741825) = 2 := by
    rw [totalRows_replicate]
    decide
  have hr1 : (1 : Int) < totalRows (CharacterGrid.fromString (List.replicate 1073741826 'a')
      1073741825) := by
    rw [hrows]
    decide
  have hc1 : (1073741824 : Int) <
      (CharacterGrid.fromString (List.replicate 1073741826 'a') 1073741825).num_columns_ := by
    decide
  have hnone : coordinatesToIndex
      (CharacterGrid.fromString (List.replicate 1073741826 'a') 1073741825)
      1 1073741824 = none := by
    rw [coordinatesToIndex_in_bounds hg (by decide) hr1 (by decide) hc1, if_pos (by decide)]
  refine ⟨⟨hr1, hc1⟩, ?_, ?_, hnone, ?_⟩
  · rw [fromString_replicate_length]
    decide
  · rw [getElementAt_in_bounds hg (by decide) hr1 (by decide) hc1, dif_neg]
    rw [fromString_replicate_length]
    decide
  · rintro ⟨i, hi, _⟩
    rw [hnone] at hi
    cases hi

/-- C19, amended.  For every constructed grid and all integers `row`, `col`:
`coordinatesToIndex(row, col)` succeeds with an index that is at least the number of items
exactly when `(row, col)` is a padding cell, that is in bounds with
`row * num_columns_ + col` at least the number of items, whose position
`row * num_columns_ + col` is at most `INT_MAX`; and such an index is rejected by
`getElementAtIndex` and by `indexToCoordinates`, while `getElementAt(row, col)` returns
the padding character. -/
theorem coordinatesToIndex_beyond_items (g : CharacterGrid) (hg : Constructed g)
    (row col : Int) :
    ((∃ i : Int, coordinatesToIndex g row col = some i ∧ (g.items_.length : Int) ≤ i) ↔
        (0 ≤ row ∧ row < totalRows g ∧ 0 ≤ col ∧ col < g.num_columns_ ∧
          (g.items_.length : Int) ≤ row * g.num_columns_ + col ∧
          row * g.num_columns_ + col ≤ INT_MAX)) ∧
      (∀ i : Int, coordinatesToIndex g row col = some i → (g.items_.length : Int) ≤ i →
        getElementAtIndex g i = none ∧ indexToCoordinates g i = none ∧
          getElementAt g row col = some '-') := by
  constructor
  · constructor
    · rintro ⟨i, hi, hge⟩
      obtain ⟨hr0, hr1, hc0, hc1, hval, hmax⟩ :=
        (coordinatesToIndex_eq_some_iff hg row col i).mp hi
      exact ⟨hr0, hr1, hc0, hc1, by omega, by omega⟩
    · rintro ⟨hr0, hr1, hc0, hc1, hge, hmax⟩
      exact ⟨row * g.num_columns_ + col,
        (coordinatesToIndex_eq_some_iff hg row col _).mpr ⟨hr0, hr1, hc0, hc1, rfl, hmax⟩,
        hge⟩
  · intro i hi hge
    obtain ⟨hr0, hr1, hc0, hc1, hval, hmax⟩ :=
      (coordinatesToIndex_eq_some_iff hg row col i).mp hi
    obtain ⟨h1, h2⟩ := index_rejected_of_ge g hmax hge
    refine ⟨h1, h2, ?_⟩
    rw [getElementAt_in_bounds hg hr0 hr1 hc0 hc1, dif_neg]
    omega

/-- C19, amended, on the example of the claim: in the grid built from `abc` with four
columns, `coordinatesToIndex(0, 3)` succeeds with the index `3`, which is the number of
items, and `getElementAtIndex(3)` and `indexToCoordinates(3)` fail. -/
theorem coordinatesToIndex_beyond_items_witness :
    coordinatesToIndex (CharacterGrid.fromString "abc".toList 4) 0 3 = some 3 ∧
      getElementAtIndex (CharacterGrid.fromString "abc".toList 4) 3 = none ∧
      indexToCoordinates (CharacterGrid.fromString "abc".toList 4) 3 = none ∧
      getElementAt (CharacterGrid.fromString "abc".toList 4) 0 3 = some '-' :=
  ⟨by decide,
   (coordinatesToIndex_beyond_items (CharacterGrid.fromString "abc".toList 4)
      (Or.inl ⟨_, _, by decide, rfl⟩) 0 3).2 3 (by decide) (by decide)⟩

/-! ## The row count of the data model -/

/-- For a non-empty grid with a positive column count, the row count of the data model
is the quotient `(length + k - 1) / k`. -/
theorem rowCount_eq_ceil_div {g : CharacterGrid} (hn1 : 1 ≤ g.num_columns_)
    (hlen : 1 ≤ g.items_.length) :
    rowCount g =
      (((g.items_.length + g.num_columns_.toNat - 1) / g.num_columns_.toNat : Nat) : Int) := by
  unfold rowCount
  rw [if_neg (by omega)]
  have hk1 : 1 ≤ g.num_columns_.toNat := by omega
  obtain ⟨hlt, hle, _, hq⟩ := ceil_div_bounds hlen hk1
  have hcols : (g.num_columns_ : ℚ) = ((g.num_columns_.toNat : Nat) : ℚ) := by
    have h := Int.toNat_of_nonneg (by omega : 0 ≤ g.num_columns_)
    exact_mod_cast h.symm
  rw [hcols]
  generalize g.num_columns_.toNat = k at *
  generalize g.items_.length = n at *
  generalize hqdef : (n + k - 1) / k = q at *
  have hkpos : (0 : ℚ) < (k : ℚ) := by exact_mod_cast hk1
  have hlt2 : ((k * q : Nat) : ℚ) < ((n + k : Nat) : ℚ) := by exact_mod_cast hlt
  have hle2 : ((n : Nat) : ℚ) ≤ ((k * q : Nat) : ℚ) := by exact_mod_cast hle
  push_cast at hlt2 hle2
  rw [Int.ceil_eq_iff]
  constructor
  · rw [lt_div_iff₀ hkpos]
    push_cast
    nlinarith
  · rw [div_le_iff₀ hkpos]
    push_cast
    nlinarith

/-- When the quotient `(size + k - 1) / k` is at most `INT_MAX`, `totalRows` computes it
without wrap-around and the conversion to `int` keeps it. -/
theorem totalRowsOf_of_fit {size : Nat} {cols : Int} (hs1 : 1 ≤ size) (hn1 : 1 ≤ cols)
    (hn2 : cols ≤ INT_MAX)
    (hq : (size + cols.toNat - 1) / cols.toNat ≤ 2147483647) :
    totalRowsOf size cols = (((size + cols.toNat - 1) / cols.toNat : Nat) : Int) := by
  have hk := toSizeT_eq_toNat (by omega : 0 ≤ cols) hn2
  unfold INT_MAX at hn2
  have hk1 : 1 ≤ cols.toNat := by omega
  have hk2 : cols.toNat ≤ 2147483647 := by omega
  obtain ⟨_, hle, _, _⟩ := ceil_div_bounds hs1 hk1
  have hprod : cols.toNat * ((size + cols.toNat - 1) / cols.toNat) ≤
      2147483647 * 2147483647 := Nat.mul_le_mul hk2 hq
  unfold totalRowsOf
  rw [if_neg (by omega), hk]
  have e1 : sizeAdd size cols.toNat = size + cols.toNat := by
    unfold sizeAdd SIZE_MOD
    exact Nat.mod_eq_of_lt (by omega)
  have e2 : sizeSub (size + cols.toNat) 1 = size + cols.toNat - 1 := by
    unfold sizeSub SIZE_MOD
    omega
  rw [e1, e2]
  exact toInt_eq_self hq

/-- For every constructed grid whose row count fits in an `int`, `totalRows` returns the
row count of the data model. -/
theorem totalRows_eq_rowCount_of_fit {g : CharacterGrid} (hg : Constructed g)
    (hrows : rowCount g ≤ INT_MAX) : totalRows g = rowCount g := by
  obtain ⟨hn1, hn2, _⟩ := hg.columns
  by_cases hzero : g.items_.length = 0
  · rw [totalRows_eq_totalRowsOf]
    unfold rowCount
    rw [if_pos hzero, hzero]
    simp [totalRowsOf]
  · have hlen : 1 ≤ g.items_.length := by omega
    have hceil := rowCount_eq_ceil_div hn1 hlen
    rw [hceil] at hrows
    unfold INT_MAX at hrows
    rw [hceil, totalRows_eq_totalRowsOf, totalRowsOf_of_fit hlen hn1 hn2 (by omega)]

/-- The row count of the grid built from `2147483648` copies of the letter `a` with one
column is `2147483648`. -/
theorem rowCount_large_grid :
    rowCount (CharacterGrid.fromString (List.replicate 2147483648 'a') 1) = 2147483648 := by
  unfold rowCount
  rw [fromString_replicate_length]
  show (if (2147483648 : ℕ) = 0 then (0 : ℤ)
    else ⌈((2147483648 : ℕ) : ℚ) / ((1 : ℤ) : ℚ)⌉) = 2147483648
  norm_num

/-- On the grid built from `2147483648` copies of the letter `a` with one column,
`totalRows` returns `-2147483648`. -/
theorem totalRows_large_grid :
    totalRows (CharacterGrid.fromString (List.replicate 2147483648 'a') 1) = -2147483648 := by
  rw [totalRows_replicate]
  decide

/-- For every constructed grid whose row count fits in an `int`, `getElementAt` fails
exactly when the coordinates are outside the row count and the column count. -/
theorem getElementAt_fails_iff_of_fit {g : CharacterGrid} (hg : Constructed g)
    (hrows : rowCount g ≤ INT_MAX) (row col : Int) :
    (getElementAt g row col = none ↔
        (row < 0 ∨ col < 0 ∨ row ≥ rowCount g ∨ col ≥ g.num_columns_)) ∧
      ((getElementAt g row col).isSome = true ↔
        (0 ≤ row ∧ row < rowCount g ∧ 0 ≤ col ∧ col < g.num_columns_)) := by
  rw [← totalRows_eq_rowCount_of_fit hg hrows]
  exact getElementAt_fails_iff g row col

/-- For every constructed grid whose row count fits in an `int` and every cell inside
the row count and the column count, `getElementAt` returns the item of the cell or the
padding character. -/
theorem getElementAt_value_of_fit {g : CharacterGrid} (hg : Constructed g)
    (hrows : rowCount g ≤ INT_MAX) {row col : Int} (hr0 : 0 ≤ row) (hr1 : row < rowCount g)
    (hc0 : 0 ≤ col) (hc1 : col < g.num_columns_) :
    getElementAt g row col =
      some (if h : (row * g.num_columns_ + col).toNat < g.items_.length
        then g.items_[(row * g.num_columns_ + col).toNat] else '-') := by
  rw [← totalRows_eq_rowCount_of_fit hg hrows] at hr1
  exact getElementAt_in_bounds hg hr0 hr1 hc0 hc1

/-- For every constructed grid whose row count fits in an `int`, `coordinatesToIndex`
fails exactly when the coordinates are outside the row count and the column count or
the index exceeds `INT_MAX`, and otherwise returns the exact index. -/
theorem coordinatesToIndex_fails_iff_of_fit {g : CharacterGrid} (hg : Constructed g)
    (hrows : rowCount g ≤ INT_MAX) (row col : Int) :
    (coordinatesToIndex g row col = none ↔
        (row < 0 ∨ col < 0 ∨ row ≥ rowCount g ∨ col ≥ g.num_columns_ ∨
          row * g.num_columns_ + col > INT_MAX)) ∧
      (∀ index : Int, coordinatesToIndex g row col = some index →
        index = row * g.num_columns_ + col) := by
  rw [← totalRows_eq_rowCount_of_fit hg hrows]
  exact coordinatesToIndex_fails_iff g hg row col

/-! ## The claims that depend on the row count -/

/-- C3 (the code departs from the claim).  In the grid built from `2147483648` copies of
the letter `a` with one column, the row count is `2147483648` and the column count is
`1`, so the cell `(0, 0)` satisfies none of `row < 0`, `col < 0`, `row ≥ rowCount`,
`col ≥ columnCount`; yet `getElementAt(0, 0)` fails, because `totalRows` returns
`-2147483648`. -/
theorem getElementAt_rejects_cell_on_large_grid :
    rowCount (CharacterGrid.fromString (List.replicate 2147483648 'a') 1) = 2147483648 ∧
      (CharacterGrid.fromString (List.replicate 2147483648 'a') 1).num_columns_ = 1 ∧
      ¬ ((0 : Int) < 0 ∨ (0 : Int) < 0 ∨
        (0 : Int) ≥ rowCount (CharacterGrid.fromString (List.replicate 2147483648 'a') 1) ∨
        (0 : Int) ≥
          (CharacterGrid.fromString (List.replicate 2147483648 'a') 1).num_columns_) ∧
      totalRows (CharacterGrid.fromString (List.replicate 2147483648 'a') 1) =
        -2147483648 ∧
      getElementAt (CharacterGrid.fromString (List.replicate 2147483648 'a') 1) 0 0 =
        none := by
  refine ⟨rowCount_large_grid, rfl, ?_, totalRows_large_grid, ?_⟩
  · rw [rowCount_large_grid]
    decide
  · unfold getElementAt
    rw [totalRows_large_grid]
    rfl

/-- C4 (the code departs from the claim).  In the grid built from `2147483648` copies of
the letter `a` with one column, the cell `(0, 0)` is in bounds, `0 ≤ 0 < rowCount` and
`0 ≤ 0 < columnCount`, its position `0 * 1 + 0` is below the number of items and holds
the item `a`; yet `getElementAt(0, 0)` returns nothing instead of `a`. -/
theorem getElementAt_misses_item_on_large_grid :
    ((0 : Int) < rowCount (CharacterGrid.fromString (List.replicate 2147483648 'a') 1) ∧
        (0 : Int) <
          (CharacterGrid.fromString (List.replicate 2147483648 'a') 1).num_columns_) ∧
      (0 : Int) * (CharacterGrid.fromString (List.replicate 2147483648 'a') 1).num_columns_ +
          0 <
        ((CharacterGrid.fromString (List.replicate 2147483648 'a') 1).items_.length : Int) ∧
      (CharacterGrid.fromString (List.replicate 2147483648 'a') 1).items_[0]? = some 'a' ∧
      getElementAt (CharacterGrid.fromString (List.replicate 2147483648 'a') 1) 0 0 =
        none := by
  refine ⟨⟨?_, by decide⟩, ?_, ?_, ?_⟩
  · rw [rowCount_large_grid]
    decide
  · rw [fromString_replicate_length]
    decide
  · rw [fromString_replicate_items]
    exact List.getElem?_replicate_of_lt (by decide)
  · unfold getElementAt
    rw [totalRows_large_grid]
    rfl

/-- C7 (the code departs from the claim).  In the grid built from `2147483648` copies of
the letter `a` with one column, the cell `(0, 0)` satisfies none of `row < 0`, `col < 0`,
`row ≥ rowCount`, `col ≥ columnCount`, `row * columnCount + col > INT_MAX`; yet
`coordinatesToIndex(0, 0)` fails, because `totalRows` returns `-2147483648`. -/
theorem coordinatesToIndex_rejects_cell_on_large_grid :
    ¬ ((0 : Int) < 0 ∨ (0 : Int) < 0 ∨
        (0 : Int) ≥ rowCount (CharacterGrid.fromString (List.replicate 2147483648 'a') 1) ∨
        (0 : Int) ≥
          (CharacterGrid.fromString (List.replicate 2147483648 'a') 1).num_columns_ ∨
        (0 : Int) *
            (CharacterGrid.fromString (List.replicate 2147483648 'a') 1).num_columns_ + 0 >
          INT_MAX) ∧
      totalRows (CharacterGrid.fromString (List.replicate 2147483648 'a') 1) =
        -2147483648 ∧
      coordinatesToIndex (CharacterGrid.fromString (List.replicate 2147483648 'a') 1) 0 0 =
        none := by
  refine ⟨?_, totalRows_large_grid, ?_⟩
  · rw [rowCount_large_grid]
    decide
  · unfold coordinatesToIndex
    rw [totalRows_large_grid]
    rfl

/-- C13, amended.  For the empty grid `displayGrid` writes the single line
`Grid is empty.`.  For every constructed grid that is not empty and whose row count
`rowCount` fits in an `int`, it writes a header row listing the column indices `0` to
`num_columns_ - 1`, each in a field of width 3, then exactly `rowCount` grid rows, one
for each `r` with `0 ≤ r < rowCount`, where row `r` holds the row number and the
`num_columns_` cells of the row, each made of two spaces and one character, the item at
`r * num_columns_ + c` if that position is below the number of items and the padding
character `-` otherwise, and then an empty line. -/
theorem displayGrid_lines (g : CharacterGrid) (hg : Constructed g)
    (hrows : rowCount g ≤ INT_MAX) :
    (g.items_ = [] → displayGrid g = ["Grid is empty.".toList]) ∧
      (g.items_ ≠ [] →
        0 ≤ rowCount g ∧
        ((displayGrid g).length : Int) = 1 + rowCount g + 1 ∧
        displayGrid g =
          ("   ".toList ++
            (List.range g.num_columns_.toNat).flatMap
              (fun c : Nat => setw 3 (intText (c : Int)))) ::
          (List.range (rowCount g).toNat).map (fun r : Nat =>
            setw 3 (intText (r : Int)) ++ [' '] ++
              (List.range g.num_columns_.toNat).flatMap (fun c : Nat =>
                [' ', ' ', if h : r * g.num_columns_.toNat + c < g.items_.length
                  then g.items_[r * g.num_columns_.toNat + c] else '-'])) ++ [[]]) := by
  have hlines := displayGrid_lines_of_totalRows g hg
  have heq := totalRows_eq_rowCount_of_fit hg hrows
  rw [heq] at hlines
  refine ⟨hlines.1, fun hne => ?_⟩
  obtain ⟨hn1, _, _⟩ := hg.columns
  have hlen : 1 ≤ g.items_.length := List.length_pos.mpr hne
  have hnonneg : 0 ≤ rowCount g := by
    rw [rowCount_eq_ceil_div hn1 hlen]
    exact Int.ofNat_nonneg _
  refine ⟨hnonneg, ?_, hlines.2 hne⟩
  rw [hlines.2 hne]
  simp only [List.length_cons, List.length_append, List.length_map, List.length_range,
    List.length_singleton, List.length_nil]
  push_cast
  rw [Int.toNat_of_nonneg hnonneg]
  ring

/-- C13, amended, on the grid built from `abcdefg` with three columns: a header row,
three grid rows and an empty line. -/
theorem displayGrid_lines_witness :
    displayGrid (CharacterGrid.fromString "abcdefg".toList 3) =
      ["     0  1  2".toList, "  0   a  b  c".toList, "  1   d  e  f".toList,
        "  2   g  -  -".toList, []] := by
  have hrows : rowCount (CharacterGrid.fromString "abcdefg".toList 3) ≤ INT_MAX := by
    have hceil := rowCount_eq_ceil_div
      (g := CharacterGrid.fromString "abcdefg".toList 3) (by decide) (by decide)
    rw [hceil]
    decide
  have hlines := ((displayGrid_lines (CharacterGrid.fromString "abcdefg".toList 3)
    (Or.inl ⟨_, _, by decide, rfl⟩) hrows).2 (by decide)).2.2
  exact hlines.trans (by
    rw [rowCount_eq_ceil_div (g := CharacterGrid.fromString "abcdefg".toList 3)
      (by decide) (by decide)]
    decide)

end GridVisualizer
